import Mathlib

/-!
# Verification of the sway-oracle resolution engine

A shallow embedding of the sports-oracle resolution pipeline
(query classification, outcome reconciliation, statistic consensus,
confidence scoring, circuit breaking) together with theorems settling
the specification claims.

Modelling conventions:
* JS numbers are embedded as `ℚ` (the code performs no operation that
  overflows or produces NaN on the embedded paths; NaN results of
  `findConsensusValue` on an empty list are modelled by `Option`).
* JS strings are embedded as `String`; character-level scanning used by
  the query classifier works on `List Char` (ASCII case folding, which
  covers every keyword table in the source).
* JS `Date` values and `Date.now()` are embedded as epoch milliseconds
  (`ℤ`); functions reading the clock take `now : ℤ` as a parameter.
* JS `Map` / `Set` iterate in insertion order; they are embedded as
  lists with first-occurrence deduplication.
-/

namespace Oracle

/-! ## Character and string utilities (ASCII model of the JS primitives) -/

/-- ASCII lower-casing of one character (model of `String.toLowerCase`). -/
def lcChar (c : Char) : Char :=
  if 'A' ≤ c ∧ c ≤ 'Z' then Char.ofNat (c.toNat + 32) else c

/-- Lower-case a character list. -/
def lowerList (s : List Char) : List Char := s.map lcChar

/-- `headMatch pat s` is true when `pat` occurs at the very start of `s`. -/
def headMatch : List Char → List Char → Bool
  | [], _ => true
  | _ :: _, [] => false
  | p :: ps, c :: cs => p == c && headMatch ps cs

/-- `hasSub pat s`: `pat` occurs somewhere in `s` (model of `String.includes`). -/
def hasSub (pat : List Char) : List Char → Bool
  | [] => headMatch pat []
  | c :: rest => headMatch pat (c :: rest) || hasSub pat rest

/-- Case-insensitive substring test on `String`s; the needle is given in
lower case. -/
def strHasSubCI (hay needle : String) : Bool :=
  hasSub needle.toList (lowerList hay.toList)

/-- Appending one element to a JS `Set` (no-op when already present). -/
def addUnique (l : List String) (x : String) : List String :=
  if x ∈ l then l else l ++ [x]

/-- First-occurrence deduplication, the iteration/membership behaviour of a
JS `Set` built by inserting the list elements left to right. -/
def firstDedup (l : List String) : List String :=
  l.foldl addUnique []

/-! ## Statistic path: data model (src/stats/types.ts) -/

/-- `StatisticUnit`. -/
inductive StatUnit
  | count | percentage | minutes | yards | other
  deriving DecidableEq, Repr

/-- `StatisticSource`.  `timestamp` is the epoch-ms value of the JS `Date`;
the opaque echo fields (`rawValue`, `parsedValue`, `metadata`, `evidence`)
are not read by any embedded function and are omitted. -/
structure StatisticSource where
  source : String
  tier : ℕ
  weight : ℚ
  timestamp : ℤ
  deriving DecidableEq, Repr

/-- `NormalizedStatistic`.  The `match` sub-record is not consulted by
consensus, validation or confidence (`matchesQuery` reads only `team` and
`player`), and is omitted. -/
structure NormalizedStatistic where
  type : String
  team : Option String
  player : Option String
  value : ℚ
  unit : StatUnit
  period : String
  aggregation : String
  sources : List StatisticSource
  deriving DecidableEq, Repr

/-- `StatisticQueryType`. -/
inductive StatQueryType
  | match_statistic | player_statistic | team_aggregate | threshold
  deriving DecidableEq, Repr

/-- `StatisticsQuery` (src/stats/types.ts).  The nested `entities.match`
record is flattened into the `matchHomeTeam`/`matchAwayTeam` fields;
`eventEndTime` holds the ISO day string of the classifier's
`new Date(date + "T23:59:59Z")`. -/
structure StatisticsQuery where
  queryType : StatQueryType
  statisticType : String
  matchHomeTeam : Option String
  matchAwayTeam : Option String
  matchCompetition : Option String
  team : Option String
  player : Option String
  aggregation : String
  period : String
  threshold : Option ℚ
  comparator : Option String
  eventEndTime : Option String
  canResolveNow : Bool
  rawText : String
  deriving DecidableEq, Repr

/-- `StatisticConsensus` (src/stats/types.ts); `agreedValue = none` models
the `null` stored when the consensus value is not finite. -/
structure StatisticConsensus where
  statisticType : String
  agreed : Bool
  agreedValue : Option ℚ
  unit : StatUnit
  agreementCount : ℕ
  variance : ℚ
  outliers : List (String × ℚ)
  tier1Count : ℕ
  statsProviderCount : ℕ
  officialSourcePresent : Bool
  bettingMarketAlignment : Bool
  supportingSources : List StatisticSource
  deriving DecidableEq, Repr

/-! ## Statistic consensus (src/stats/consensus.ts) -/

def STATS_PROVIDER_NAMES : List String := ["OPTA_STATS", "STATSBOMB", "SPORTSRADAR"]

/-- `matchesQuery`.  Field presence stands for JS truthiness: the optional
strings produced by the classifier are never empty. -/
def matchesQuery (stat : NormalizedStatistic) (query : StatisticsQuery) : Bool :=
  if stat.type ≠ query.statisticType then false
  else if query.team.isSome ∧ stat.team.isSome ∧ stat.team ≠ query.team then false
  else if query.player.isSome ∧ stat.player.isSome ∧ stat.player ≠ query.player then false
  else true

def flattenSources (stats : List NormalizedStatistic) : List StatisticSource :=
  (stats.map (fun s => s.sources)).flatten

/-- The peer count of a candidate centre `v`:
`values.filter((candidate) => Math.abs(candidate - value) <= tolerance).length`. -/
def countWithin (values : List ℚ) (tolerance : ℚ) (v : ℚ) : ℕ :=
  (values.filter (fun candidate => |candidate - v| ≤ tolerance)).length

/-- One step of the `findConsensusValue` scan: the running best
`(bestValue, bestCount)` against the candidate centre `v`
(`count > bestCount || (count === bestCount && value < bestValue)`). -/
def fcvStep (values : List ℚ) (tolerance : ℚ) (best : ℚ × ℕ) (v : ℚ) : ℚ × ℕ :=
  if countWithin values tolerance v > best.2 ∨
      (countWithin values tolerance v = best.2 ∧ v < best.1) then
    (v, countWithin values tolerance v)
  else best

/-- `findConsensusValue`.  The `NaN` value returned for an empty list is
modelled as `none` (the caller stores `null` for non-finite values). -/
def findConsensusValue (values : List ℚ) (tolerance : ℚ) : Option ℚ × ℕ :=
  match values with
  | [] => (none, 0)
  | v0 :: _ =>
    let r := values.foldl (fcvStep values tolerance) (v0, 1)
    (some r.1, r.2)

/-- `calculateVariance`: population variance. -/
def calculateVariance (values : List ℚ) : ℚ :=
  if values.length = 0 then 0
  else
    let mean := values.sum / values.length
    ((values.map (fun v => (v - mean) ^ 2)).sum) / values.length

/-- The `/BETTING|ODDS|SETTLEMENT/i` test on a source name. -/
def bettingSourceTest (name : String) : Bool :=
  strHasSubCI name "betting" || strHasSubCI name "odds" || strHasSubCI name "settlement"

/-- `computeStatisticConsensus`. -/
def computeStatisticConsensus (normalized : List NormalizedStatistic)
    (query : StatisticsQuery) : Option StatisticConsensus :=
  let relevant := normalized.filter (fun s => matchesQuery s query)
  match relevant with
  | [] => none
  | r0 :: rest =>
    let relevant := r0 :: rest
    let sources := flattenSources relevant
    let tolerance : ℚ := if r0.unit = .percentage then 1 else 0
    let values := relevant.map (fun s => s.value)
    let fc := findConsensusValue values tolerance
    let variance := calculateVariance values
    let outliers :=
      match fc.1 with
      | none => []
      | some agreedValue =>
        (relevant.filter (fun s => |s.value - agreedValue| > tolerance)).map
          (fun s => (((s.sources.head?).map (fun src => src.source)).getD "unknown", s.value))
    let tier1Count := (sources.filter (fun src => src.tier = 1)).length
    let statsProviderCount :=
      (sources.filter (fun src => src.source ∈ STATS_PROVIDER_NAMES)).length
    let agreed : Bool :=
      decide (3 ≤ fc.2 ∧ 1 ≤ statsProviderCount ∧
        variance ≤ (if r0.unit = .percentage then 4 else 1))
    some
      { statisticType := query.statisticType
        agreed := agreed
        agreedValue := fc.1
        unit := r0.unit
        agreementCount := fc.2
        variance := variance
        outliers := outliers
        tier1Count := tier1Count
        statsProviderCount := statsProviderCount
        officialSourcePresent := decide (0 < tier1Count)
        bettingMarketAlignment := sources.any (fun src => bettingSourceTest src.source)
        supportingSources := sources }

/-! ## Characterisation of the `findConsensusValue` scan -/

/-- `r` dominates candidate `v`: `v` can no longer replace `r` in the scan. -/
def fcvDom (values : List ℚ) (tol : ℚ) (r : ℚ × ℕ) (v : ℚ) : Prop :=
  countWithin values tol v < r.2 ∨ (countWithin values tol v = r.2 ∧ r.1 ≤ v)

/-- The scan only improves the running best in the lexicographic
(count, smaller-value) sense. -/
def pairGe (r b : ℚ × ℕ) : Prop :=
  b.2 < r.2 ∨ (b.2 = r.2 ∧ r.1 ≤ b.1)

theorem pairGe_refl (b : ℚ × ℕ) : pairGe b b := Or.inr ⟨rfl, le_refl _⟩

theorem pairGe_trans {a b c : ℚ × ℕ} (h1 : pairGe a b) (h2 : pairGe b c) : pairGe a c := by
  rcases h1 with h1 | ⟨h1, h1'⟩ <;> rcases h2 with h2 | ⟨h2, h2'⟩
  · exact Or.inl (h2.trans h1)
  · exact Or.inl (h2 ▸ h1)
  · exact Or.inl (h1 ▸ h2)
  · exact Or.inr ⟨h2.trans h1, h1'.trans h2'⟩

theorem fcvDom_of_pairGe {values : List ℚ} {tol : ℚ} {r b : ℚ × ℕ} {v : ℚ}
    (hge : pairGe r b) (hdom : fcvDom values tol b v) : fcvDom values tol r v := by
  rcases hge with hge | ⟨hge, hge'⟩ <;> rcases hdom with hdom | ⟨hdom, hdom'⟩
  · exact Or.inl (by omega)
  · exact Or.inl (by omega)
  · exact Or.inl (by omega)
  · exact Or.inr ⟨by omega, hge'.trans hdom'⟩

theorem fcvStep_pairGe (values : List ℚ) (tol : ℚ) (b : ℚ × ℕ) (v : ℚ) :
    pairGe (fcvStep values tol b v) b := by
  unfold fcvStep
  split
  · rename_i h
    rcases h with h | ⟨h, h'⟩
    · exact Or.inl h
    · exact Or.inr ⟨h.symm, le_of_lt h'⟩
  · exact pairGe_refl b

theorem fcvStep_dom_self (values : List ℚ) (tol : ℚ) (b : ℚ × ℕ) (v : ℚ) :
    fcvDom values tol (fcvStep values tol b v) v := by
  unfold fcvStep
  split
  · exact Or.inr ⟨rfl, le_refl v⟩
  · rename_i h
    push_neg at h
    rcases lt_or_eq_of_le h.1 with hlt | heq
    · exact Or.inl hlt
    · exact Or.inr ⟨heq, h.2 heq⟩

theorem fcvStep_cases (values : List ℚ) (tol : ℚ) (b : ℚ × ℕ) (v : ℚ) :
    fcvStep values tol b v = b ∨
      fcvStep values tol b v = (v, countWithin values tol v) := by
  unfold fcvStep
  split
  · exact Or.inr rfl
  · exact Or.inl rfl

/-- Fold invariant of the `findConsensusValue` scan. -/
theorem fcvFold_inv (values : List ℚ) (tol : ℚ) :
    ∀ (l : List ℚ) (b : ℚ × ℕ),
      (l.foldl (fcvStep values tol) b = b ∨
        ((l.foldl (fcvStep values tol) b).1 ∈ l ∧
          (l.foldl (fcvStep values tol) b).2 =
            countWithin values tol (l.foldl (fcvStep values tol) b).1)) ∧
      (∀ v ∈ l, fcvDom values tol (l.foldl (fcvStep values tol) b) v) ∧
      pairGe (l.foldl (fcvStep values tol) b) b := by
  intro l
  induction l with
  | nil =>
    intro b
    exact ⟨Or.inl rfl, fun v hv => absurd hv (List.not_mem_nil v), pairGe_refl b⟩
  | cons v l' ih =>
    intro b
    obtain ⟨ihA, ihB, ihC⟩ := ih (fcvStep values tol b v)
    have hstep := fcvStep_cases values tol b v
    have hself : fcvDom values tol (List.foldl (fcvStep values tol) (fcvStep values tol b v) l') v :=
      fcvDom_of_pairGe ihC (fcvStep_dom_self values tol b v)
    refine ⟨?_, ?_, ?_⟩
    · rcases ihA with ihA | ⟨ihA1, ihA2⟩
    -- the fold over l' returned its seed: split on what the first step did
      · rw [List.foldl_cons, ihA]
        rcases hstep with h | h
        · exact Or.inl h
        · exact Or.inr ⟨by rw [h]; exact List.mem_cons_self v l', by rw [h]⟩
      · exact Or.inr ⟨List.mem_cons_of_mem v ihA1, ihA2⟩
    · intro w hw
      rcases List.mem_cons.mp hw with hw | hw
      · subst hw; exact hself
      · exact ihB w hw
    · exact pairGe_trans ihC (fcvStep_pairGe values tol b v)

/-- Characterisation of `findConsensusValue` on a non-empty list with a
non-negative tolerance: it returns an element of the list whose peer count
is maximal, the smallest such element, together with that count. -/
theorem findConsensusValue_spec (values : List ℚ) (tol : ℚ)
    (hne : values ≠ []) (htol : 0 ≤ tol) :
    ∃ v n, findConsensusValue values tol = (some v, n) ∧
      v ∈ values ∧ n = countWithin values tol v ∧
      (∀ w ∈ values, countWithin values tol w ≤ n) ∧
      (∀ w ∈ values, countWithin values tol w = n → v ≤ w) := by
  match values, hne with
  | v0 :: rest, _ =>
    set vs := v0 :: rest with hvs
    obtain ⟨hA, hB, _⟩ := fcvFold_inv vs tol vs (v0, 1)
    set r := vs.foldl (fcvStep vs tol) (v0, 1) with hr
    have hv0 : countWithin vs tol v0 ≥ 1 := by
      have : v0 ∈ vs.filter (fun candidate => |candidate - v0| ≤ tol) := by
        refine List.mem_filter.mpr ⟨List.mem_cons_self v0 rest, ?_⟩
        simpa using htol
      have := List.length_pos.mpr (List.ne_nil_of_mem this)
      simpa [countWithin] using this
    have hmem : r.1 ∈ vs ∧ r.2 = countWithin vs tol r.1 := by
      rcases hA with hA | hA
      · have hdom0 := hB v0 (List.mem_cons_self v0 rest)
        rw [hA] at hdom0 ⊢
        rcases hdom0 with hdom0 | ⟨hdom0, _⟩
        · omega
        · exact ⟨List.mem_cons_self v0 rest, hdom0.symm⟩
      · exact hA
    refine ⟨r.1, r.2, ?_, hmem.1, hmem.2, ?_, ?_⟩
    · show findConsensusValue vs tol = (some r.1, r.2)
      simp only [findConsensusValue, ← hvs, ← hr]
    · intro w hw
      rcases hB w hw with h | ⟨h, _⟩
      · exact le_of_lt h
      · exact le_of_eq h
    · intro w hw heq
      rcases hB w hw with h | ⟨_, h⟩
      · omega
      · exact h

/-- Explicit form of `computeStatisticConsensus` once the filtered list is known. -/
theorem computeStatisticConsensus_eq (normalized : List NormalizedStatistic)
    (query : StatisticsQuery) (r0 : NormalizedStatistic) (rest : List NormalizedStatistic)
    (heq : normalized.filter (fun s => matchesQuery s query) = r0 :: rest) :
    computeStatisticConsensus normalized query = some
      { statisticType := query.statisticType
        agreed := decide (3 ≤ (findConsensusValue ((r0 :: rest).map (fun s => s.value))
            (if r0.unit = .percentage then 1 else 0)).2 ∧
          1 ≤ ((flattenSources (r0 :: rest)).filter
            (fun src => src.source ∈ STATS_PROVIDER_NAMES)).length ∧
          calculateVariance ((r0 :: rest).map (fun s => s.value)) ≤
            (if r0.unit = .percentage then 4 else 1))
        agreedValue := (findConsensusValue ((r0 :: rest).map (fun s => s.value))
          (if r0.unit = .percentage then 1 else 0)).1
        unit := r0.unit
        agreementCount := (findConsensusValue ((r0 :: rest).map (fun s => s.value))
          (if r0.unit = .percentage then 1 else 0)).2
        variance := calculateVariance ((r0 :: rest).map (fun s => s.value))
        outliers :=
          match (findConsensusValue ((r0 :: rest).map (fun s => s.value))
              (if r0.unit = .percentage then 1 else 0)).1 with
          | none => []
          | some agreedValue =>
            ((r0 :: rest).filter (fun s =>
                |s.value - agreedValue| > (if r0.unit = .percentage then 1 else 0))).map
              (fun s => (((s.sources.head?).map (fun src => src.source)).getD "unknown", s.value))
        tier1Count := ((flattenSources (r0 :: rest)).filter (fun src => src.tier = 1)).length
        statsProviderCount := ((flattenSources (r0 :: rest)).filter
          (fun src => src.source ∈ STATS_PROVIDER_NAMES)).length
        officialSourcePresent := decide
          (0 < ((flattenSources (r0 :: rest)).filter (fun src => src.tier = 1)).length)
        bettingMarketAlignment := (flattenSources (r0 :: rest)).any
          (fun src => bettingSourceTest src.source)
        supportingSources := flattenSources (r0 :: rest) } := by
  unfold computeStatisticConsensus
  rw [heq]

/-- C3: the agreed flag of a statistic consensus implies at least three
agreeing values, at least one tier-1 stats provider
(`OPTA_STATS`/`STATSBOMB`/`SPORTSRADAR`), and population variance of the
matching values within 4 for percentages and 1 otherwise. -/
theorem C3_agreed_invariant (normalized : List NormalizedStatistic)
    (query : StatisticsQuery) (c : StatisticConsensus)
    (h : computeStatisticConsensus normalized query = some c)
    (hagreed : c.agreed = true) :
    3 ≤ c.agreementCount ∧ 1 ≤ c.statsProviderCount ∧
    (∃ src ∈ c.supportingSources, src.source ∈ STATS_PROVIDER_NAMES) ∧
    c.variance = calculateVariance
      ((normalized.filter (fun s => matchesQuery s query)).map (fun s => s.value)) ∧
    c.variance ≤ (if c.unit = .percentage then 4 else 1) := by
  cases heq : normalized.filter (fun s => matchesQuery s query) with
  | nil =>
    rw [computeStatisticConsensus, heq] at h
    exact absurd h (by simp)
  | cons r0 rest =>
    rw [computeStatisticConsensus_eq normalized query r0 rest heq] at h
    rw [Option.some.injEq] at h
    subst h
    have hag : 3 ≤ (findConsensusValue ((r0 :: rest).map (fun s => s.value))
          (if r0.unit = .percentage then 1 else 0)).2 ∧
        1 ≤ ((flattenSources (r0 :: rest)).filter
          (fun src => src.source ∈ STATS_PROVIDER_NAMES)).length ∧
        calculateVariance ((r0 :: rest).map (fun s => s.value)) ≤
          (if r0.unit = .percentage then 4 else 1) := of_decide_eq_true hagreed
    obtain ⟨h1, h2, h3⟩ := hag
    refine ⟨h1, h2, ?_, rfl, h3⟩
    have hne : ((flattenSources (r0 :: rest)).filter
        (fun src => decide (src.source ∈ STATS_PROVIDER_NAMES))) ≠ [] := by
      intro hnil
      rw [hnil] at h2
      simp at h2
    obtain ⟨src, hsrc⟩ := List.exists_mem_of_ne_nil _ hne
    obtain ⟨hmem, hp⟩ := List.mem_filter.mp hsrc
    exact ⟨src, hmem, by simpa using hp⟩

/-- Concrete input for the C3 witness: three agreeing tier-1 stats sources. -/
def c3exStats : List NormalizedStatistic :=
  [ { type := "yellow_cards", team := none, player := none, value := 4, unit := .count,
      period := "full_time", aggregation := "total",
      sources := [⟨"OPTA_STATS", 1, 45/100, 0⟩] },
    { type := "yellow_cards", team := none, player := none, value := 4, unit := .count,
      period := "full_time", aggregation := "total",
      sources := [⟨"STATSBOMB", 1, 45/100, 0⟩] },
    { type := "yellow_cards", team := none, player := none, value := 4, unit := .count,
      period := "full_time", aggregation := "total",
      sources := [⟨"SPORTSRADAR", 1, 45/100, 0⟩] } ]

def c3exQuery : StatisticsQuery :=
  { queryType := .match_statistic, statisticType := "yellow_cards",
    matchHomeTeam := some "Arsenal", matchAwayTeam := some "Chelsea",
    matchCompetition := none, team := none, player := none,
    aggregation := "total", period := "full_time", threshold := none,
    comparator := none, eventEndTime := none, canResolveNow := true,
    rawText := "yellow cards Arsenal vs Chelsea" }

def c3exConsensus : StatisticConsensus :=
  { statisticType := "yellow_cards", agreed := true, agreedValue := some 4,
    unit := .count, agreementCount := 3, variance := 0, outliers := [],
    tier1Count := 3, statsProviderCount := 3, officialSourcePresent := true,
    bettingMarketAlignment := false,
    supportingSources :=
      [⟨"OPTA_STATS", 1, 45/100, 0⟩, ⟨"STATSBOMB", 1, 45/100, 0⟩,
        ⟨"SPORTSRADAR", 1, 45/100, 0⟩] }

/-- C2 (amended): statistic consensus scans each observed matching value,
counts the peers within the scan tolerance — which the code sets to 1 for
percentage units and 0 otherwise (not the 4/1 of the spec's `tol(unit)`
table) — the highest count wins with ties to the smaller value, and the
outliers are exactly the matching statistics farther than that same scan
tolerance from the agreed value. -/
theorem C2_consensus_value_amended (normalized : List NormalizedStatistic)
    (query : StatisticsQuery) (c : StatisticConsensus)
    (h : computeStatisticConsensus normalized query = some c) :
    ∃ v, c.agreedValue = some v ∧
      v ∈ (normalized.filter (fun s => matchesQuery s query)).map (fun s => s.value) ∧
      c.agreementCount = countWithin
        ((normalized.filter (fun s => matchesQuery s query)).map (fun s => s.value))
        (if c.unit = .percentage then 1 else 0) v ∧
      (∀ w ∈ (normalized.filter (fun s => matchesQuery s query)).map (fun s => s.value),
        countWithin ((normalized.filter (fun s => matchesQuery s query)).map (fun s => s.value))
          (if c.unit = .percentage then 1 else 0) w ≤ c.agreementCount) ∧
      (∀ w ∈ (normalized.filter (fun s => matchesQuery s query)).map (fun s => s.value),
        countWithin ((normalized.filter (fun s => matchesQuery s query)).map (fun s => s.value))
          (if c.unit = .percentage then 1 else 0) w = c.agreementCount → v ≤ w) ∧
      c.outliers = ((normalized.filter (fun s => matchesQuery s query)).filter
        (fun s => |s.value - v| > (if c.unit = .percentage then 1 else 0))).map
        (fun s => (((s.sources.head?).map (fun src => src.source)).getD "unknown", s.value)) := by
  cases heq : normalized.filter (fun s => matchesQuery s query) with
  | nil =>
    rw [computeStatisticConsensus, heq] at h
    exact absurd h (by simp)
  | cons r0 rest =>
    rw [computeStatisticConsensus_eq normalized query r0 rest heq] at h
    rw [Option.some.injEq] at h
    subst h
    have hne : (r0 :: rest).map (fun s => s.value) ≠ [] := by simp
    have htol : (0:ℚ) ≤ (if r0.unit = .percentage then 1 else 0) := by
      split <;> norm_num
    obtain ⟨v, n, hfc, hv, hn, hmax, hmin⟩ :=
      findConsensusValue_spec ((r0 :: rest).map (fun s => s.value))
        (if r0.unit = .percentage then 1 else 0) hne htol
    refine ⟨v, ?_, hv, ?_, ?_, ?_, ?_⟩
    · show (findConsensusValue ((r0 :: rest).map (fun s => s.value))
        (if r0.unit = .percentage then 1 else 0)).1 = some v
      rw [hfc]
    · show (findConsensusValue ((r0 :: rest).map (fun s => s.value))
        (if r0.unit = .percentage then 1 else 0)).2 = _
      rw [hfc]
      exact hn
    · intro w hw
      show _ ≤ (findConsensusValue ((r0 :: rest).map (fun s => s.value))
        (if r0.unit = .percentage then 1 else 0)).2
      rw [hfc]
      exact hmax w hw
    · intro w hw hcount
      refine hmin w hw ?_
      rw [hfc] at hcount
      exact hcount
    · show (match (findConsensusValue ((r0 :: rest).map (fun s => s.value))
          (if r0.unit = StatUnit.percentage then 1 else 0)).1 with
        | Option.none => ([] : List (String × ℚ))
        | Option.some agreedValue =>
          ((r0 :: rest).filter (fun (s : NormalizedStatistic) =>
              |s.value - agreedValue| > (if r0.unit = StatUnit.percentage then 1 else 0))).map
            (fun (s : NormalizedStatistic) =>
              (((s.sources.head?).map (fun (src : StatisticSource) => src.source)).getD "unknown",
                s.value))) = _
      rw [hfc]

/-- The spec's tolerance table, as the claim words it:
`tol(percentage) = 4`, `tol(otherwise) = 1`. -/
def claimTol (u : StatUnit) : ℚ := if u = .percentage then 4 else 1

/-- The agreed-value rule as the claim words it, over an arbitrary tolerance:
among the observed values with the most peers within the tolerance, the
smallest one. -/
def claimConsensusValue (values : List ℚ) (tol : ℚ) : Option ℚ :=
  (values.filter (fun v =>
    decide (∀ w ∈ values, countWithin values tol w ≤ countWithin values tol v))).min?

/-- Concrete input refuting C2 as stated: three `count`-unit statistics with
values 5, 6, 6 from three distinct tier-1 stats providers. -/
def c2exStats : List NormalizedStatistic :=
  [ { type := "corners", team := none, player := none, value := 5, unit := .count,
      period := "full_time", aggregation := "total",
      sources := [⟨"OPTA_STATS", 1, 45/100, 0⟩] },
    { type := "corners", team := none, player := none, value := 6, unit := .count,
      period := "full_time", aggregation := "total",
      sources := [⟨"STATSBOMB", 1, 45/100, 0⟩] },
    { type := "corners", team := none, player := none, value := 6, unit := .count,
      period := "full_time", aggregation := "total",
      sources := [⟨"SPORTSRADAR", 1, 45/100, 0⟩] } ]

def c2exQuery : StatisticsQuery :=
  { queryType := .match_statistic, statisticType := "corners",
    matchHomeTeam := some "Arsenal", matchAwayTeam := some "Chelsea",
    matchCompetition := none, team := none, player := none,
    aggregation := "total", period := "full_time", threshold := none,
    comparator := none, eventEndTime := none, canResolveNow := true,
    rawText := "corners Arsenal vs Chelsea" }

/-- What the code actually produces on `c2exStats`. -/
def c2exConsensus : StatisticConsensus :=
  { statisticType := "corners", agreed := false, agreedValue := some 6,
    unit := .count, agreementCount := 2, variance := 2/9,
    outliers := [("OPTA_STATS", 5)],
    tier1Count := 3, statsProviderCount := 3, officialSourcePresent := true,
    bettingMarketAlignment := false,
    supportingSources :=
      [⟨"OPTA_STATS", 1, 45/100, 0⟩, ⟨"STATSBOMB", 1, 45/100, 0⟩,
        ⟨"SPORTSRADAR", 1, 45/100, 0⟩] }

/-! ## Statistic validation (src/stats/validation.ts) -/

structure RangeRule where
  min : ℚ
  max : ℚ
  typicalLo : ℚ
  typicalHi : ℚ
  deriving DecidableEq, Repr

/-- `RANGE_RULES` (per statistic type): `⟨min, max, typical lo, typical hi⟩`. -/
def RANGE_RULES : String → Option RangeRule
  | "yellow_cards" => some ⟨0, 15, 0, 8⟩
  | "red_cards" => some ⟨0, 4, 0, 1⟩
  | "total_cards" => some ⟨0, 20, 2, 12⟩
  | "corners" => some ⟨0, 30, 3, 12⟩
  | "shots_on_target" => some ⟨0, 40, 2, 15⟩
  | "shots_total" => some ⟨0, 60, 5, 30⟩
  | "fouls" => some ⟨0, 40, 8, 20⟩
  | "possession" => some ⟨0, 100, 30, 70⟩
  | "goals" => some ⟨0, 15, 0, 5⟩
  | "assists" => some ⟨0, 15, 0, 5⟩
  | "saves" => some ⟨0, 30, 0, 15⟩
  | "tackles" => some ⟨0, 30, 0, 20⟩
  | "interceptions" => some ⟨0, 25, 0, 15⟩
  | "passes" => some ⟨0, 1200, 200, 900⟩
  | "pass_accuracy" => some ⟨0, 100, 60, 95⟩
  | "rebounds_total" => some ⟨0, 120, 60, 100⟩
  | "rebounds_offensive" => some ⟨0, 60, 10, 35⟩
  | "rebounds_defensive" => some ⟨0, 60, 30, 70⟩
  | "turnovers" => some ⟨0, 40, 5, 20⟩
  | "three_pointers_made" => some ⟨0, 35, 5, 20⟩
  | "three_pointers_attempted" => some ⟨0, 70, 10, 45⟩
  | "free_throws_made" => some ⟨0, 60, 10, 35⟩
  | "free_throws_attempted" => some ⟨0, 80, 15, 45⟩
  | "minutes_played" => some ⟨0, 300, 80, 180⟩
  | "penalties" => some ⟨0, 25, 0, 10⟩
  | "penalty_yards" => some ⟨0, 300, 20, 120⟩
  | "sacks" => some ⟨0, 20, 0, 10⟩
  | "time_of_possession" => some ⟨0, 100, 35, 65⟩
  | "third_down_conversions" => some ⟨0, 25, 3, 15⟩
  | "red_zone_efficiency" => some ⟨0, 100, 30, 80⟩
  | _ => none

structure StatisticValidationResult where
  valid : Bool
  warnings : List String
  reason : Option String
  deriving DecidableEq, Repr

/-- `validateStatistic`. -/
def validateStatistic (stat : NormalizedStatistic) : StatisticValidationResult :=
  match RANGE_RULES stat.type with
  | none =>
    { valid := true, warnings := ["No validation rules defined for this statistic"],
      reason := none }
  | some rules =>
    if stat.value < rules.min ∨ stat.value > rules.max then
      { valid := false,
        reason := some ("Value " ++ toString stat.value ++ " outside valid range [" ++
          toString rules.min ++ ", " ++ toString rules.max ++ "]"),
        warnings := [] }
    else if stat.value < rules.typicalLo ∨ stat.value > rules.typicalHi then
      { valid := true,
        warnings := ["Unusual value " ++ toString stat.value ++ " for " ++ stat.type ++
          " (typical range " ++ toString rules.typicalLo ++ "-" ++
          toString rules.typicalHi ++ ")"],
        reason := none }
    else { valid := true, warnings := [], reason := none }

/-- `findValue`. -/
def findValue (stats : List NormalizedStatistic) (type' : String) : Option ℚ :=
  (stats.find? (fun stat => stat.type = type')).map (fun s => s.value)

/-- First of `LOGICAL_RULES`: shots on target cannot exceed total shots. -/
def logicalRule1 (stats : List NormalizedStatistic) : Option String :=
  match findValue stats "shots_on_target", findValue stats "shots_total" with
  | some shotsOnTarget, some shotsTotal =>
    if shotsOnTarget > shotsTotal then some "shots_on_target cannot exceed shots_total"
    else none
  | _, _ => none

/-- Second of `LOGICAL_RULES`: goals cannot exceed shots on target. -/
def logicalRule2 (stats : List NormalizedStatistic) : Option String :=
  match findValue stats "goals", findValue stats "shots_on_target" with
  | some goals, some shotsOnTarget =>
    if goals > shotsOnTarget then some "goals cannot exceed shots_on_target"
    else none
  | _, _ => none

/-- Third of `LOGICAL_RULES`: yellow + red cards must equal total cards. -/
def logicalRule3 (stats : List NormalizedStatistic) : Option String :=
  match findValue stats "total_cards", findValue stats "yellow_cards",
      findValue stats "red_cards" with
  | some total, some yellow, some red =>
    if yellow + red ≠ total then some "yellow_cards + red_cards should equal total_cards"
    else none
  | _, _, _ => none

/-- Fourth of `LOGICAL_RULES`: two possession rows must sum to about 100. -/
def logicalRule4 (stats : List NormalizedStatistic) : Option String :=
  let possession := stats.filter (fun stat => stat.type = "possession")
  if possession.length = 2 then
    if |(possession.map (fun s => s.value)).sum - 100| > 2 then
      some "Team possession values should sum to approximately 100"
    else none
  else none

structure StatisticsValidationSummary where
  withinRange : Bool
  logicallyConsistent : Bool
  warnings : List String
  invalidSources : List String
  deriving DecidableEq, Repr

/-- `summarizeValidation`. -/
def summarizeValidation (stats : List NormalizedStatistic) : StatisticsValidationSummary :=
  let results := stats.map (fun stat => (stat, validateStatistic stat))
  let invalidSources := (results.filter (fun r => !r.2.valid)).map
    (fun r => ((r.1.sources.head?).map (fun src => src.source)).getD "unknown")
  let warnings := (results.map (fun r => r.2.warnings)).flatten
  let logicalWarnings :=
    ([logicalRule1 stats, logicalRule2 stats, logicalRule3 stats,
      logicalRule4 stats]).filterMap id
  { withinRange := invalidSources.length = 0
    logicallyConsistent := logicalWarnings.length = 0
    warnings := warnings ++ logicalWarnings
    invalidSources := invalidSources }

/-! ## Statistic confidence (src/stats/confidence.ts) -/

/-- `clamp01` (`Math.max(0, Math.min(1, value))`). -/
def clamp01 (value : ℚ) : ℚ := max 0 (min 1 value)

/-- `computeFreshnessScore`; `now` is the `Date.now()` reading, timestamps
are epoch ms.  (The `instanceof Date` filter keeps every source in this
model, where timestamps are always dates.) -/
def computeFreshnessScore (sources : List StatisticSource) (now : ℤ) : ℚ :=
  if sources.length = 0 then 0
  else
    let ages := sources.map (fun source => ((now - source.timestamp : ℤ) : ℚ) / (1000 * 60))
    if ages.length = 0 then 1/2
    else
      let averageAgeMinutes := ages.sum / ages.length
      if averageAgeMinutes ≤ 15 then 1
      else if averageAgeMinutes ≤ 60 then 8/10
      else if averageAgeMinutes ≤ 180 then 6/10
      else if averageAgeMinutes ≤ 720 then 4/10
      else 2/10

/-- `computeConfidenceScore`; only the `score` of the result record is
consulted downstream, so the diagnostic `factors` record is not embedded.
The source's local `gatherSources` is literally `flattenSources`. -/
def computeConfidenceScore (consensus : Option StatisticConsensus)
    (normalized : List NormalizedStatistic)
    (validation : Option StatisticsValidationSummary) (now : ℤ) : ℚ :=
  let sources := flattenSources normalized
  let officialStatsProviderAgreement : ℚ :=
    match consensus with
    | some c => if c.statsProviderCount > 0 then 1 else 0
    | none => 0
  let officialLeagueAPIAgreement : ℚ :=
    match consensus with
    | some c => if c.tier1Count > 0 then 1 else 0
    | none => 0
  let agreementDenominator : ℕ := Nat.max 3 sources.length
  let totalSourceAgreement : ℚ :=
    match consensus with
    | some c => min 1 ((c.agreementCount : ℚ) / (agreementDenominator : ℚ))
    | none => 0
  let bettingMarketAlignment : ℚ :=
    match consensus with
    | some c => if c.bettingMarketAlignment then 1 else 0
    | none => 0
  let varianceThreshold : ℚ :=
    match consensus with
    | some c => if c.unit = .percentage then 4 else 1
    | none => 1
  let lowVariance : ℚ :=
    match consensus with
    | some c => clamp01 (1 - min 1 (c.variance / varianceThreshold))
    | none => 0
  let dataFreshnessScore := computeFreshnessScore sources now
  let score0 := officialStatsProviderAgreement * (4/10) +
    officialLeagueAPIAgreement * (25/100) + totalSourceAgreement * (15/100) +
    bettingMarketAlignment * (1/10) + lowVariance * (5/100) +
    dataFreshnessScore * (5/100)
  let score1 :=
    match consensus with
    | some c => if c.variance > 2 then score0 * (8/10) else score0
    | none => score0
  let score2 :=
    match consensus with
    | some c => if c.outliers.length > 1 then score1 * (9/10) else score1
    | none => score1
  let score3 :=
    match validation with
    | some v =>
      if v.warnings.any (fun w => headMatch ("Unusual value").toList w.toList) then
        score2 * (95/100)
      else score2
    | none => score2
  clamp01 score3

/-! ## Statistic resolution (src/stats/graph.ts, src/stats/index.ts) -/

/-- `StatisticProviderResponse`; the opaque `payload`/`meta` fields are read
only by the normalization walker, which is outside this embedding. -/
structure StatisticProviderResponse where
  provider : String
  tier : ℕ
  weight : ℚ
  collectedAt : ℤ
  deriving DecidableEq, Repr

/-- `evaluateThreshold`. -/
def evaluateThreshold (value : ℚ) (comparator : String) (threshold : ℚ) : Bool :=
  if comparator = ">" then decide (value > threshold)
  else if comparator = ">=" then decide (value ≥ threshold)
  else if comparator = "<" then decide (value < threshold)
  else if comparator = "<=" then decide (value ≤ threshold)
  else if comparator = "=" then decide (value = threshold)
  else false

/-- `buildResolution`.  The numeric interpolation of `agreedValue` is
rendered with `toString`; no claim inspects the digits. -/
def buildResolution (consensus : Option StatisticConsensus)
    (query : StatisticsQuery) : String :=
  match consensus with
  | none => "insufficient_data"
  | some c =>
    match c.agreedValue with
    | none => "insufficient_data"
    | some agreedValue =>
      if query.queryType = .threshold then
        match query.threshold, query.comparator with
        | some threshold, some comparator =>
          if evaluateThreshold agreedValue comparator threshold then "yes" else "no"
        | _, _ =>
          query.statisticType ++ ":" ++ toString agreedValue ++
            (if c.unit = .percentage then "%" else "")
      else
        query.statisticType ++ ":" ++ toString agreedValue ++
          (if c.unit = .percentage then "%" else "")

/-- `selectSources`. -/
def selectSources (consensus : Option StatisticConsensus)
    (providers : List StatisticProviderResponse) : List String :=
  match consensus with
  | some c => (c.supportingSources.map (fun source => source.source)).take 8
  | none => (providers.map (fun provider => provider.provider)).take 8

structure StatisticsResolutionOutcome where
  resolution : String
  confidence : ℚ
  sources : List String
  deriving DecidableEq, Repr

/-- The statistic pipeline from the normalization stage onward:
`runStatisticsGraph` runs validate → consensus → confidence in sequence on
the state, and `resolveStatisticsQuery` assembles the result.  The payload
walker `deriveNormalizedStatistics` is outside the embedding, so the
normalized statistics are the input here.  The `?? 0.15` fallback on the
confidence never fires: the confidence node always stores a score.
(The reasoning string is assembled from the same data and is not consulted
by any claim.) -/
def resolveStatisticsFromNormalized (statsQuery : StatisticsQuery)
    (providers : List StatisticProviderResponse)
    (normalized : List NormalizedStatistic) (now : ℤ) : StatisticsResolutionOutcome :=
  let validation := summarizeValidation normalized
  let consensus := computeStatisticConsensus normalized statsQuery
  let confidence := computeConfidenceScore consensus normalized (some validation) now
  { resolution := buildResolution consensus statsQuery
    confidence := confidence
    sources := selectSources consensus providers }

/-! ## Outcome path: data model (src/resolver.ts, src/parsers/query-schema.ts) -/

/-- Lower-case an embedded string (ASCII model of `toLowerCase`). -/
def lowerStr (s : String) : String := ⟨lowerList s.data⟩

/-- `questionType` of a `StructuredQuery`. -/
inductive QuestionType
  | did_result_happen | who_won | player_award | scoreline | other
  deriving DecidableEq, Repr

/-- `StructuredQuery` (query-schema.ts).  The optional `player`,
`competition` and `matchday` fields are omitted: no embedded consumer reads
them, and the zod schema accepts every value the parser can put there, so
they cannot influence the fields kept here. -/
structure StructuredQuery where
  sport : String
  date : Option String
  teams : List String
  questionType : QuestionType
  deriving DecidableEq, Repr

/-- `category` of a `NormalizedFact`. -/
inductive Category
  | result | scoreline | award | news | other
  deriving DecidableEq, Repr

/-- `NormalizedFact` (resolver.ts).  `endTimestamp` holds the epoch-ms
value `Date.parse` extracts from the stored ISO string, `none` covering an
absent or unparseable timestamp; the optional strings are non-empty
wherever present (the normalizers drop empty strings), so JS truthiness is
`Option.isSome`. -/
structure NormalizedFact where
  provider : String
  canonicalKey : String
  display : String
  category : Category
  homeTeam : Option String
  awayTeam : Option String
  winner : Option String
  homeScore : Option ℚ
  awayScore : Option ℚ
  award : Option String
  player : Option String
  status : Option String
  endTimestamp : Option ℤ
  sourceUrl : Option String
  reliability : ℚ
  deriving DecidableEq, Repr

/-- `EvidenceGroup`; `providers` is the JS `Set` as its insertion-ordered
list of distinct elements. -/
structure EvidenceGroup where
  key : String
  facts : List NormalizedFact
  providers : List String
  reliabilityAverage : ℚ
  deriving DecidableEq, Repr

def MAX_SOURCE_COUNT : ℕ := 8
def MIN_CORROBORATING_PROVIDERS : ℕ := 3

def FINAL_STATUS_KEYWORDS : List String :=
  ["ft", "fulltime", "full time", "finished", "final", "completed",
    "after overtime", "aet", "ended", "finale"]

/-! ## Outcome reconciliation (src/resolver.ts) -/

/-- `normalizeTeamName`: lower-case, then strip every character outside
`[a-z0-9]` (splitting on non-alphanumerics and joining with "" erases
exactly those characters). -/
def normalizeTeamName (team : String) : String :=
  ⟨(lowerList team.data).filter (fun c =>
    ('a' ≤ c ∧ c ≤ 'z') ∨ ('0' ≤ c ∧ c ≤ '9'))⟩

/-- `normalizeValue`. -/
def normalizeValue (value : Option String) : String :=
  match value with
  | some v => normalizeTeamName v
  | none => ""

/-- `isFinalStatus`. -/
def isFinalStatus (status : Option String) : Bool :=
  match status with
  | none => false
  | some s =>
    let normalized := lowerStr s
    FINAL_STATUS_KEYWORDS.contains normalized ||
      hasSub "final".toList normalized.data ||
      hasSub "full".toList normalized.data ||
      hasSub "completed".toList normalized.data

/-- `filterFinalFacts`. -/
def filterFinalFacts (facts : List NormalizedFact) : List NormalizedFact :=
  let finals := facts.filter (fun fact => fact.category = .news || isFinalStatus fact.status)
  if finals.length > 0 then finals else facts

/-- `extractWinner`: the first fact carrying a winner other than "draw". -/
def extractWinner : List NormalizedFact → Option String
  | [] => none
  | fact :: rest =>
    match fact.winner with
    | some w => if w ≠ "draw" then some w else extractWinner rest
    | none => extractWinner rest

/-- `deriveResolution`. -/
def deriveResolution (structured : StructuredQuery) (facts : List NormalizedFact)
    (winner : Option String) : String :=
  match winner with
  | none =>
    if structured.questionType = .player_award then
      match (facts.find? (fun fact => fact.category = .award && fact.player.isSome)).bind
          (fun fact => fact.player) with
      | some player => player
      | none => "insufficient_data"
    else "insufficient_data"
  | some w =>
    match structured.questionType with
    | .did_result_happen =>
      match structured.teams.head? with
      | none => "insufficient_data"
      | some targetTeam =>
        if normalizeValue (some w) = normalizeValue (some targetTeam) then "yes" else "no"
    | .who_won => w
    | .scoreline =>
      match facts.find? (fun item => item.homeScore.isSome && item.awayScore.isSome &&
          item.homeTeam.isSome && item.awayTeam.isSome) with
      | some fact =>
        (fact.homeTeam.getD "") ++ " " ++ ((fact.homeScore.map (fun q => toString q)).getD "") ++
          "-" ++ ((fact.awayScore.map (fun q => toString q)).getD "") ++ " " ++
          (fact.awayTeam.getD "")
      | none => w
    | _ => w

/-- `computeConfidence`. -/
def computeConfidence (agreeingSources : ℕ) (conflicts : ℕ) (avgReliability : ℚ) : ℚ :=
  let base : ℚ :=
    if agreeingSources = 3 then 6/10
    else if agreeingSources = 4 then 75/100
    else if 5 ≤ agreeingSources then 9/10
    else 3/10
  base - min (25/100) ((conflicts : ℚ) * (1/10)) + (avgReliability - 7/10) * (15/100)

/-- `computeFreshnessBonus`; `now` is the `Date.now()` reading. -/
def computeFreshnessBonus (now : ℤ) (facts : List NormalizedFact) : ℚ :=
  let horizon : ℤ := 72 * 60 * 60 * 1000
  let recent := facts.filter (fun fact =>
    match fact.endTimestamp with
    | some ts => decide (now - ts < horizon)
    | none => false)
  if recent.length = facts.length ∧ 0 < facts.length then 5/100
  else if (facts.length + 1) / 2 ≤ recent.length then 2/100
  else 0

/-- `clampConfidence` (the `Number.isFinite` guard cannot fire over `ℚ`). -/
def clampConfidence (value : ℚ) : ℚ :=
  if value < 0 then 0
  else if value > 1 then 1
  else value

/-- `averageReliability`. -/
def averageReliability (facts : List NormalizedFact) : ℚ :=
  if facts.length = 0 then 1/2
  else (facts.map (fun fact => fact.reliability)).sum / facts.length

/-- `gatherSources`: `sourceUrl ?? provider`, dropping empty strings
(`isDefinedString`), deduplicated through a `Set`. -/
def gatherSources (facts : List NormalizedFact) : List String :=
  firstDedup ((facts.map (fun fact => (fact.sourceUrl).getD fact.provider)).filter
    (fun s => s ≠ ""))

/-- `countDistinctProviders`. -/
def countDistinctProviders (facts : List NormalizedFact) : ℕ :=
  (firstDedup (facts.map (fun fact => fact.provider))).length

/-- `countConflicts`. -/
def countConflicts (groups : List EvidenceGroup) (acceptedKey : String) : ℕ :=
  (groups.filter (fun group => group.key ≠ acceptedKey && 0 < group.providers.length)).length

/-- One step of `groupFacts`: route a fact into the insertion-ordered group
map (a fact with a falsy canonical key is skipped). -/
def insertFact (groups : List EvidenceGroup) (fact : NormalizedFact) : List EvidenceGroup :=
  if fact.canonicalKey = "" then groups
  else if groups.any (fun group => group.key = fact.canonicalKey) then
    groups.map (fun group =>
      if group.key = fact.canonicalKey then
        { group with
          facts := group.facts ++ [fact]
          providers := addUnique group.providers fact.provider }
      else group)
  else
    groups ++ [{ key := fact.canonicalKey
                 facts := [fact]
                 providers := [fact.provider]
                 reliabilityAverage := fact.reliability }]

/-- `groupFacts`: build the insertion-ordered groups then recompute each
group's `reliabilityAverage` over its facts. -/
def groupFacts (facts : List NormalizedFact) : List EvidenceGroup :=
  ((facts.foldl insertFact []).map (fun group =>
    { group with reliabilityAverage := averageReliability group.facts }))

/-- One step of `selectAcceptedGroup`'s scan. -/
def sagStep (best group : EvidenceGroup) : EvidenceGroup :=
  if group.providers.length > best.providers.length then group
  else if group.providers.length = best.providers.length ∧
      group.reliabilityAverage > best.reliabilityAverage then group
  else best

/-- `selectAcceptedGroup`: largest distinct-provider set, ties to the higher
reliability average, earlier insertion wins remaining ties. -/
def selectAcceptedGroup (groups : List EvidenceGroup) : Option EvidenceGroup :=
  match groups with
  | [] => none
  | g :: rest => some (rest.foldl sagStep g)

/-- `buildDefaultReasoning`. -/
def buildDefaultReasoning (facts : List NormalizedFact) (providerCount : ℕ)
    (winner : Option String) (structured : StructuredQuery) : String :=
  let providerList := (firstDedup (facts.map (fun fact => fact.provider))).take 3
  match winner with
  | some w =>
    if structured.questionType = .did_result_happen then
      let targetTeam := structured.teams.head?
      let outcome :=
        if normalizeValue (some w) = normalizeValue targetTeam then "won" else "did not win"
      (targetTeam.getD "The team") ++ " " ++ outcome ++ ", corroborated by " ++
        String.intercalate ", " providerList ++ "."
    else
      w ++ " confirmed as winner by " ++ String.intercalate ", " providerList ++ "."
  | none =>
    match facts.head? with
    | some fact =>
      if fact.homeTeam.isSome ∧ fact.awayTeam.isSome ∧
          fact.homeScore.isSome ∧ fact.awayScore.isSome then
        fact.display ++ " confirmed by " ++ String.intercalate ", " providerList ++ "."
      else
        "Outcome corroborated by " ++ toString providerCount ++
          " independent sources: " ++ String.intercalate ", " providerList ++ "."
    | none =>
      "Outcome corroborated by " ++ toString providerCount ++
        " independent sources: " ++ String.intercalate ", " providerList ++ "."

/-- The successful result of `summarizeWithModel` — an external LLM call,
so the decision procedure takes it as an input (`none` is a failed or
skipped call).  `sources` holds only non-empty strings in the source
(`filter(isDefinedString)`), which no claim relies on. -/
structure ModelSummary where
  reasoning : Option String
  sources : List String
  confidence : Option ℚ
  resolution : Option String
  deriving DecidableEq, Repr

structure AnalysisResult where
  normalizedFacts : List NormalizedFact
  groups : List EvidenceGroup
  acceptedGroup : Option EvidenceGroup
  errors : List String
  deriving DecidableEq, Repr

/-- `analyzeArtifacts` below the normalization adapters: group the
normalized facts and select the accepted group. -/
def analyzeFacts (normalizedFacts : List NormalizedFact) (errors : List String) :
    AnalysisResult :=
  { normalizedFacts := normalizedFacts
    groups := groupFacts normalizedFacts
    acceptedGroup := selectAcceptedGroup (groupFacts normalizedFacts)
    errors := errors }

structure ResolutionDecision where
  resolution : String
  confidence : ℚ
  reasoning : String
  sources : List String
  acceptedGroupKey : Option String
  finalFacts : List NormalizedFact
  errors : List String
  deriving DecidableEq, Repr

/-- The deterministic confidence of `decideResolution`
(resolver.ts lines 172–177): the base/conflict/reliability formula plus the
freshness bonus, clamped. -/
def deterministicConfidence (finalFacts : List NormalizedFact) (conflicts : ℕ)
    (now : ℤ) : ℚ :=
  clampConfidence (computeConfidence (countDistinctProviders finalFacts) conflicts
    (averageReliability finalFacts) + computeFreshnessBonus now finalFacts)

/-- `decideResolution`.  The LLM advisory summary is an input (it is an
external call); `now` is the `Date.now()` reading of the freshness check. -/
def decideResolution (structured : StructuredQuery) (analysis : AnalysisResult)
    (summary : Option ModelSummary) (now : ℤ) : ResolutionDecision :=
  let baseline : ResolutionDecision :=
    { resolution := "insufficient_data", confidence := 25/100,
      reasoning := "Insufficient corroboration from independent sources.",
      sources := [], acceptedGroupKey := none, finalFacts := [],
      errors := analysis.errors }
  match analysis.acceptedGroup with
  | none => baseline
  | some group =>
    let finalFacts := filterFinalFacts group.facts
    let providerCount := countDistinctProviders finalFacts
    if providerCount < MIN_CORROBORATING_PROVIDERS then
      { baseline with
        confidence := 3/10
        reasoning := "Fewer than three independent sources confirmed the outcome."
        acceptedGroupKey := some group.key
        finalFacts := finalFacts }
    else
      let winner := extractWinner finalFacts
      let resolution := deriveResolution structured finalFacts winner
      if resolution = "insufficient_data" then
        { baseline with
          confidence := 3/10
          reasoning := "Unable to confirm a definitive outcome despite multiple sources."
          acceptedGroupKey := some group.key
          finalFacts := finalFacts }
      else
        let conflicts := countConflicts analysis.groups group.key
        let confidence := deterministicConfidence finalFacts conflicts now
        let sources := (gatherSources finalFacts).take MAX_SOURCE_COUNT
        let reasoning := buildDefaultReasoning finalFacts providerCount winner structured
        match summary with
        | none =>
          { resolution := resolution, confidence := confidence, reasoning := reasoning,
            sources := sources, acceptedGroupKey := some group.key,
            finalFacts := finalFacts, errors := analysis.errors }
        | some s =>
          let reasoningFinal := (s.reasoning).getD reasoning
          let finalSources :=
            if 0 < s.sources.length then
              (firstDedup (sources ++ s.sources)).take MAX_SOURCE_COUNT
            else sources
          let finalConfidence :=
            match s.confidence with
            | some llmConfidence => clampConfidence ((confidence + llmConfidence) / 2)
            | none => confidence
          let errors :=
            if s.resolution.isSome ∧
                normalizeValue s.resolution ≠ normalizeValue (some resolution) then
              analysis.errors ++
                ["LLM resolution differed from deterministic resolution; deterministic result retained."]
            else analysis.errors
          { resolution := resolution, confidence := finalConfidence,
            reasoning := reasoningFinal, sources := finalSources,
            acceptedGroupKey := some group.key, finalFacts := finalFacts,
            errors := errors }

/-- On a non-empty value list the scan always produces a value (the
`NaN`/`null` path needs an empty list). -/
theorem findConsensusValue_isSome (values : List ℚ) (tol : ℚ) (h : values ≠ []) :
    ∃ v, (findConsensusValue values tol).1 = some v := by
  match values, h with
  | v0 :: rest, _ => exact ⟨_, rfl⟩

theorem mem_data_append (c : Char) (a b : String) :
    c ∈ (a ++ b).data ↔ c ∈ a.data ∨ c ∈ b.data := by
  show c ∈ a.data ++ b.data ↔ _
  exact List.mem_append

/-- A string containing a colon is not the `insufficient_data` keyword. -/
theorem ne_insufficient_of_colon (s : String) (h : ':' ∈ s.data) :
    s ≠ "insufficient_data" := by
  intro he
  rw [he] at h
  exact absurd h (by decide)

/-- C4 (amended): on the statistic path, the resolution is
`insufficient_data` exactly when no normalized statistic matches the query
(so no consensus is computed); whenever a consensus exists the resolution is
derived from its agreed value even when `agreed = false`, and the confidence
is the weighted statistic confidence score, with no clamping to the
0.25–0.30 band. -/
theorem C4_insufficient_gate_amended (statsQuery : StatisticsQuery)
    (providers : List StatisticProviderResponse)
    (normalized : List NormalizedStatistic) (now : ℤ) :
    ((resolveStatisticsFromNormalized statsQuery providers normalized now).resolution =
        "insufficient_data"
      ↔ normalized.filter (fun s => matchesQuery s statsQuery) = []) ∧
    (resolveStatisticsFromNormalized statsQuery providers normalized now).confidence =
      computeConfidenceScore (computeStatisticConsensus normalized statsQuery)
        normalized (some (summarizeValidation normalized)) now := by
  refine ⟨?_, rfl⟩
  show buildResolution (computeStatisticConsensus normalized statsQuery) statsQuery =
      "insufficient_data" ↔ _
  cases heq : normalized.filter (fun s => matchesQuery s statsQuery) with
  | nil =>
    have hcons : computeStatisticConsensus normalized statsQuery = none := by
      rw [computeStatisticConsensus, heq]
    rw [hcons]
    simp [buildResolution]
  | cons r0 rest =>
    rw [computeStatisticConsensus_eq normalized statsQuery r0 rest heq]
    constructor
    · intro hres
      exfalso
      obtain ⟨v, hv⟩ := findConsensusValue_isSome ((r0 :: rest).map (fun s => s.value))
        (if r0.unit = .percentage then 1 else 0) (by simp)
      simp only [buildResolution, hv] at hres
      have hcolon : ∀ (t sfx : String),
          statsQuery.statisticType ++ ":" ++ t ++ sfx ≠ "insufficient_data" := by
        intro t sfx
        refine ne_insufficient_of_colon _ ?_
        rw [mem_data_append, mem_data_append, mem_data_append]
        exact Or.inl (Or.inl (Or.inr (by decide)))
      split at hres
      · rcases hth : statsQuery.threshold with _ | t <;>
          rcases hcmp : statsQuery.comparator with _ | cmp <;>
          rw [hth, hcmp] at hres
        · exact hcolon _ _ hres
        · exact hcolon _ _ hres
        · exact hcolon _ _ hres
        · dsimp only at hres
          split at hres <;> exact absurd hres (by decide)
      · exact hcolon _ _ hres
    · intro h
      exact absurd h (by simp)

/-! ## C5: the outcome confidence formula -/

/-- A final fact counts as recent when its parsed end timestamp lies within
72 hours of `now` (`now - ts < horizon`, matching the code: a missing or
unparseable timestamp never counts). -/
def isRecentFact (now : ℤ) (fact : NormalizedFact) : Bool :=
  match fact.endTimestamp with
  | some ts => decide (now - ts < 72 * 60 * 60 * 1000)
  | none => false

/-- The confidence formula exactly as claim C5 words it, reading
"a majority" as strictly more than half of the final facts. -/
def specOutcomeConfidenceMajority (facts : List NormalizedFact) (conflicts : ℕ)
    (now : ℤ) : ℚ :=
  let p := countDistinctProviders facts
  let base : ℚ :=
    if p = 3 then 6/10 else if p = 4 then 75/100 else if 5 ≤ p then 9/10 else 3/10
  let recent := (facts.filter (isRecentFact now)).length
  let freshness : ℚ :=
    if recent = facts.length ∧ 0 < facts.length then 5/100
    else if 2 * recent > facts.length then 2/100
    else 0
  clampConfidence (base - min (25/100) ((conflicts : ℚ) * (1/10)) +
    (averageReliability facts - 7/10) * (15/100) + freshness)

/-- The confidence formula of the amended claim: the 0.02 freshness bonus
needs only at least half of the final facts (rounding up) to be recent. -/
def specOutcomeConfidenceHalf (facts : List NormalizedFact) (conflicts : ℕ)
    (now : ℤ) : ℚ :=
  let p := countDistinctProviders facts
  let base : ℚ :=
    if p = 3 then 6/10 else if p = 4 then 75/100 else if 5 ≤ p then 9/10 else 3/10
  let recent := (facts.filter (isRecentFact now)).length
  let freshness : ℚ :=
    if recent = facts.length ∧ 0 < facts.length then 5/100
    else if (facts.length + 1) / 2 ≤ recent then 2/100
    else 0
  clampConfidence (base - min (25/100) ((conflicts : ℚ) * (1/10)) +
    (averageReliability facts - 7/10) * (15/100) + freshness)

/-- C5 (amended): past the 3-provider gate, the deterministic confidence is
the clamp to [0,1] of base (0.6/0.75/0.9 at 3/4/≥5 agreeing providers)
minus `min(0.25, conflicts·0.1)` plus `(avgReliability − 0.7)·0.15` plus a
freshness bonus of 0.05 when all final facts are within 72 h of now and
0.02 when at least half of them (rounding up) are. -/
theorem C5_confidence_amended (facts : List NormalizedFact) (conflicts : ℕ) (now : ℤ)
    (hgate : 3 ≤ countDistinctProviders facts) :
    deterministicConfidence facts conflicts now =
      specOutcomeConfidenceHalf facts conflicts now := by
  unfold deterministicConfidence specOutcomeConfidenceHalf computeConfidence
    computeFreshnessBonus
  rfl

/-- Four distinct providers, all reliability 0.7, two facts fresh at
`now = 0` and two stale: exactly half are recent. -/
def c5exFacts : List NormalizedFact :=
  [ { provider := "THESPORTSDB", canonicalKey := "winner:lakers:k:d", display := "a",
      category := .result, homeTeam := none, awayTeam := none,
      winner := some "Lakers", homeScore := none, awayScore := none, award := none,
      player := none, status := some "FT", endTimestamp := some 0,
      sourceUrl := none, reliability := 7/10 },
    { provider := "API_SPORTS_BASKETBALL", canonicalKey := "winner:lakers:k:d",
      display := "b", category := .result, homeTeam := none, awayTeam := none,
      winner := some "Lakers", homeScore := none, awayScore := none, award := none,
      player := none, status := some "FT", endTimestamp := some 0,
      sourceUrl := none, reliability := 7/10 },
    { provider := "THE_ODDS_API", canonicalKey := "winner:lakers:k:d", display := "c",
      category := .result, homeTeam := none, awayTeam := none,
      winner := some "Lakers", homeScore := none, awayScore := none, award := none,
      player := none, status := some "FT", endTimestamp := some (-300000000),
      sourceUrl := none, reliability := 7/10 },
    { provider := "ESPN", canonicalKey := "winner:lakers:k:d", display := "d",
      category := .result, homeTeam := none, awayTeam := none,
      winner := some "Lakers", homeScore := none, awayScore := none, award := none,
      player := none, status := some "FT", endTimestamp := some (-300000000),
      sourceUrl := none, reliability := 7/10 } ]

/-! ## C10: drawn matches on the outcome path -/

/-- `extractWinner` skips every `"draw"` winner. -/
theorem extractWinner_eq_none :
    ∀ (facts : List NormalizedFact),
      (∀ fact ∈ facts, fact.winner = some "draw") → extractWinner facts = none
  | [], _ => rfl
  | fact :: rest, h => by
    have hf := h fact (List.mem_cons_self fact rest)
    have ih := extractWinner_eq_none rest
      (fun f hf' => h f (List.mem_cons_of_mem fact hf'))
    unfold extractWinner
    rw [hf]
    simpa using ih

/-- C10: when every final fact of the accepted group reports a draw and no
award-category fact names a player, no winner is extracted and the outcome
resolution is `insufficient_data` (never `"no"`), regardless of how many
providers corroborate the draw and for any question type. -/
theorem C10_draw_insufficient (structured : StructuredQuery)
    (normalizedFacts : List NormalizedFact) (errors : List String)
    (summary : Option ModelSummary) (now : ℤ) (group : EvidenceGroup)
    (hgroup : (analyzeFacts normalizedFacts errors).acceptedGroup = some group)
    (hdraw : ∀ fact ∈ filterFinalFacts group.facts, fact.winner = some "draw")
    (hnoaward : ∀ fact ∈ filterFinalFacts group.facts,
      ¬(fact.category = .award ∧ fact.player.isSome = true)) :
    extractWinner (filterFinalFacts group.facts) = none ∧
    (decideResolution structured (analyzeFacts normalizedFacts errors) summary
      now).resolution = "insufficient_data" ∧
    (decideResolution structured (analyzeFacts normalizedFacts errors) summary
      now).resolution ≠ "no" := by
  have hw := extractWinner_eq_none _ hdraw
  have hfind : (filterFinalFacts group.facts).find?
      (fun fact => fact.category = .award && fact.player.isSome) = none := by
    rw [List.find?_eq_none]
    intro f hf
    have hnf := hnoaward f hf
    simp only [Bool.and_eq_true, decide_eq_true_eq]
    exact fun hc => hnf ⟨hc.1, hc.2⟩
  have hder : deriveResolution structured (filterFinalFacts group.facts) none =
      "insufficient_data" := by
    by_cases hq : structured.questionType = .player_award
    · simp [deriveResolution, hq, hfind]
    · simp [deriveResolution, hq]
  have hres : (decideResolution structured (analyzeFacts normalizedFacts errors)
      summary now).resolution = "insufficient_data" := by
    by_cases hp : countDistinctProviders (filterFinalFacts group.facts) <
        MIN_CORROBORATING_PROVIDERS
    · simp [decideResolution, hgroup, hp]
    · simp [decideResolution, hgroup, hp, hw, hder]
  exact ⟨hw, hres, by rw [hres]; decide⟩

/-- The `Set`-building fold keeps its accumulator duplicate-free. -/
theorem addUnique_fold_nodup :
    ∀ (l acc : List String), acc.Nodup → (l.foldl addUnique acc).Nodup
  | [], _, h => h
  | x :: xs, acc, h => by
    apply addUnique_fold_nodup xs
    unfold addUnique
    split
    · exact h
    · rename_i hx
      simp only [List.nodup_append, List.nodup_cons, List.not_mem_nil,
        not_false_eq_true, List.nodup_nil, and_true, true_and]
      exact ⟨h, fun a ha hax => hx (by rwa [List.mem_singleton.mp hax] at ha)⟩

theorem firstDedup_nodup (l : List String) : (firstDedup l).Nodup :=
  addUnique_fold_nodup l [] List.nodup_nil

/-- C6 (amended): the sources of an outcome resolution are at most 8 and
duplicate-free on every input; the statistic path also caps its sources at
8 but does not deduplicate them. -/
theorem C6_sources_amended :
    (∀ (structured : StructuredQuery) (normalizedFacts : List NormalizedFact)
        (errors : List String) (summary : Option ModelSummary) (now : ℤ),
      (decideResolution structured (analyzeFacts normalizedFacts errors) summary
        now).sources.length ≤ 8 ∧
      (decideResolution structured (analyzeFacts normalizedFacts errors) summary
        now).sources.Nodup) ∧
    (∀ (statsQuery : StatisticsQuery) (providers : List StatisticProviderResponse)
        (normalized : List NormalizedStatistic) (now : ℤ),
      (resolveStatisticsFromNormalized statsQuery providers normalized
        now).sources.length ≤ 8) := by
  constructor
  · intro structured normalizedFacts errors summary now
    have htake : ∀ (l : List String), l.Nodup → (l.take 8).Nodup ∧ (l.take 8).length ≤ 8 :=
      fun l hl => ⟨hl.sublist (List.take_sublist 8 l), by
        simpa using List.length_take_le 8 l⟩
    cases hg : (analyzeFacts normalizedFacts errors).acceptedGroup with
    | none =>
      constructor <;> simp [decideResolution, hg]
    | some group =>
      by_cases hp : countDistinctProviders (filterFinalFacts group.facts) <
          MIN_CORROBORATING_PROVIDERS
      · constructor <;> simp [decideResolution, hg, hp]
      · by_cases hres : deriveResolution structured (filterFinalFacts group.facts)
            (extractWinner (filterFinalFacts group.facts)) = "insufficient_data"
        · constructor <;> simp [decideResolution, hg, hp, hres]
        · cases summary with
          | none =>
            have h8 := htake (gatherSources (filterFinalFacts group.facts))
              (firstDedup_nodup _)
            constructor
            · simpa [decideResolution, hg, hp, hres, MAX_SOURCE_COUNT] using h8.2
            · simpa [decideResolution, hg, hp, hres, MAX_SOURCE_COUNT] using h8.1
          | some s =>
            by_cases hlen : 0 < s.sources.length
            · have h8 := htake (firstDedup
                ((gatherSources (filterFinalFacts group.facts)).take MAX_SOURCE_COUNT ++
                  s.sources)) (firstDedup_nodup _)
              constructor
              · simpa [decideResolution, hg, hp, hres, hlen, MAX_SOURCE_COUNT] using h8.2
              · simpa [decideResolution, hg, hp, hres, hlen, MAX_SOURCE_COUNT] using h8.1
            · have h8 := htake (gatherSources (filterFinalFacts group.facts))
                (firstDedup_nodup _)
              constructor
              · simpa [decideResolution, hg, hp, hres, hlen, MAX_SOURCE_COUNT] using h8.2
              · simpa [decideResolution, hg, hp, hres, hlen, MAX_SOURCE_COUNT] using h8.1
  · intro statsQuery providers normalized now
    show (selectSources (computeStatisticConsensus normalized statsQuery)
      providers).length ≤ 8
    cases computeStatisticConsensus normalized statsQuery with
    | none => simpa [selectSources] using List.length_take_le 8 _
    | some c => simpa [selectSources] using List.length_take_le 8 _

/-- Concrete input for the C4 counterexample: one matching `goals` value
from a single tier-3 source, so `agreed = false` but an agreed value exists. -/
def c4exStats : List NormalizedStatistic :=
  [ { type := "goals", team := none, player := none, value := 5, unit := .count,
      period := "full_time", aggregation := "total",
      sources := [⟨"ESPN", 3, 1/4, 0⟩] } ]

def c4exQuery : StatisticsQuery :=
  { queryType := .match_statistic, statisticType := "goals",
    matchHomeTeam := none, matchAwayTeam := none,
    matchCompetition := none, team := none, player := none,
    aggregation := "total", period := "full_time", threshold := none,
    comparator := none, eventEndTime := none, canResolveNow := true,
    rawText := "goals" }

/-! ## C1: grouping and selection under permutation -/

theorem addUnique_firstDedup (m : List String) (x : String) :
    firstDedup (m ++ [x]) = addUnique (firstDedup m) x := by
  unfold firstDedup
  rw [List.foldl_append]
  rfl

theorem mem_addUnique (l : List String) (x a : String) :
    a ∈ addUnique l x ↔ a ∈ l ∨ a = x := by
  unfold addUnique
  split
  · rename_i hx
    constructor
    · exact Or.inl
    · rintro (h | rfl)
      · exact h
      · exact hx
  · simp [List.mem_append]

theorem mem_firstDedup_fold : ∀ (l acc : List String) (a : String),
    (a ∈ l.foldl addUnique acc ↔ a ∈ acc ∨ a ∈ l)
  | [], acc, a => by simp
  | x :: xs, acc, a => by
    rw [List.foldl_cons, mem_firstDedup_fold xs (addUnique acc x) a, mem_addUnique]
    simp [List.mem_cons]
    tauto

theorem mem_firstDedup (l : List String) (a : String) : a ∈ firstDedup l ↔ a ∈ l := by
  unfold firstDedup
  rw [mem_firstDedup_fold]
  simp

theorem toFinset_firstDedup (l : List String) : (firstDedup l).toFinset = l.toFinset := by
  ext a
  simp [List.mem_toFinset, mem_firstDedup]

theorem length_firstDedup (l : List String) : (firstDedup l).length = l.toFinset.card := by
  rw [← toFinset_firstDedup]
  exact (List.toFinset_card_of_nodup (firstDedup_nodup l)).symm

theorem length_firstDedup_perm {l l' : List String} (h : l.Perm l') :
    (firstDedup l).length = (firstDedup l').length := by
  rw [length_firstDedup, length_firstDedup, List.toFinset_eq_of_perm l l' h]

/-- The facts of `facts` carrying canonical key `k` (in order). -/
def keyFacts (facts : List NormalizedFact) (k : String) : List NormalizedFact :=
  facts.filter (fun f => f.canonicalKey = k)

theorem keyFacts_append (facts : List NormalizedFact) (f : NormalizedFact) (k : String) :
    keyFacts (facts ++ [f]) k =
      keyFacts facts k ++ (if f.canonicalKey = k then [f] else []) := by
  unfold keyFacts
  rw [List.filter_append]
  congr 1
  by_cases hf : f.canonicalKey = k <;> simp [hf]

theorem averageReliability_perm {l l' : List NormalizedFact} (h : l.Perm l') :
    averageReliability l = averageReliability l' := by
  unfold averageReliability
  rw [h.length_eq, (h.map (fun f => f.reliability)).sum_eq]

/-- The selection measure of a group: distinct-provider count, then
reliability average. -/
def groupMeasure (g : EvidenceGroup) : ℕ × ℚ := (g.providers.length, g.reliabilityAverage)

/-- The measure a canonical key would receive from the grouped facts. -/
def keyMeasure (facts : List NormalizedFact) (k : String) : ℕ × ℚ :=
  ((firstDedup ((keyFacts facts k).map (fun f => f.provider))).length,
    averageReliability (keyFacts facts k))

theorem keyMeasure_perm {facts facts' : List NormalizedFact}
    (h : facts.Perm facts') (k : String) : keyMeasure facts k = keyMeasure facts' k := by
  unfold keyMeasure
  have hkf : (keyFacts facts k).Perm (keyFacts facts' k) := h.filter _
  rw [length_firstDedup_perm (hkf.map _), averageReliability_perm hkf]

/-- Invariant tying an accumulated group list to the prefix of facts that
produced it: each group collects exactly the facts of its (non-empty) key in
order, its provider set is the first-occurrence deduplication of its facts'
providers, keys are unique, and the keys present are exactly the non-empty
canonical keys occurring in the prefix. -/
def GroupsInv (facts : List NormalizedFact) (gs : List EvidenceGroup) : Prop :=
  (∀ g ∈ gs, g.key ≠ "" ∧ g.facts = keyFacts facts g.key ∧
    g.providers = firstDedup (g.facts.map (fun f => f.provider))) ∧
  ((gs.map (fun g => g.key)).Nodup) ∧
  (∀ k : String, (∃ g ∈ gs, g.key = k) ↔ (k ≠ "" ∧ ∃ f ∈ facts, f.canonicalKey = k))

theorem groupsInv_nil : GroupsInv [] [] := by
  refine ⟨by simp, by simp, ?_⟩
  intro k
  simp

theorem groupsInv_step (facts : List NormalizedFact) (gs : List EvidenceGroup)
    (f : NormalizedFact) (h : GroupsInv facts gs) :
    GroupsInv (facts ++ [f]) (insertFact gs f) := by
  obtain ⟨h1, h2, h3⟩ := h
  unfold insertFact
  by_cases hk : f.canonicalKey = ""
  · rw [if_pos hk]
    refine ⟨?_, h2, ?_⟩
    · intro g hg
      obtain ⟨hg1, hg2, hg3⟩ := h1 g hg
      refine ⟨hg1, ?_, hg3⟩
      rw [keyFacts_append, if_neg (fun he => hg1 (by rw [← he, hk])),
        List.append_nil, hg2]
    · intro k
      rw [h3 k]
      constructor
      · rintro ⟨hk0, f', hf', hfk⟩
        exact ⟨hk0, f', List.mem_append_left _ hf', hfk⟩
      · rintro ⟨hk0, f', hf', hfk⟩
        rcases List.mem_append.mp hf' with hf' | hf'
        · exact ⟨hk0, f', hf', hfk⟩
        · rw [List.mem_singleton.mp hf'] at hfk
          exact absurd (hfk ▸ hk) hk0
  · rw [if_neg hk]
    by_cases hex : gs.any (fun group => group.key = f.canonicalKey)
    · rw [if_pos hex]
      have hkeys : ∀ g ∈ gs,
          ((if g.key = f.canonicalKey then
            { g with
              facts := g.facts ++ [f]
              providers := addUnique g.providers f.provider }
          else g) : EvidenceGroup).key = g.key := by
        intro g _
        split <;> rfl
      refine ⟨?_, ?_, ?_⟩
      · intro g' hg'
        obtain ⟨g, hg, hup⟩ := List.mem_map.mp hg'
        obtain ⟨hg1, hg2, hg3⟩ := h1 g hg
        by_cases hgk : g.key = f.canonicalKey
        · rw [if_pos hgk] at hup
          subst hup
          refine ⟨hg1, ?_, ?_⟩
          · show g.facts ++ [f] = keyFacts (facts ++ [f]) g.key
            rw [keyFacts_append, if_pos hgk.symm, hg2]
          · show addUnique g.providers f.provider =
              firstDedup ((g.facts ++ [f]).map (fun f => f.provider))
            rw [List.map_append]
            show addUnique g.providers f.provider =
              firstDedup ((g.facts.map (fun f => f.provider)) ++ [f.provider])
            rw [addUnique_firstDedup, hg3]
        · rw [if_neg hgk] at hup
          subst hup
          refine ⟨hg1, ?_, hg3⟩
          rw [keyFacts_append, if_neg (fun he => hgk he.symm), List.append_nil, hg2]
      · have : (gs.map (fun g =>
            if g.key = f.canonicalKey then
              { g with
                facts := g.facts ++ [f]
                providers := addUnique g.providers f.provider }
            else g)).map (fun g => g.key) = gs.map (fun g => g.key) := by
          rw [List.map_map]
          exact List.map_congr_left hkeys
        rw [this]
        exact h2
      · intro k
        have hiff : (∃ g' ∈ gs.map (fun g =>
            if g.key = f.canonicalKey then
              { g with
                facts := g.facts ++ [f]
                providers := addUnique g.providers f.provider }
            else g), g'.key = k) ↔ (∃ g ∈ gs, g.key = k) := by
          constructor
          · rintro ⟨g', hg', hgk⟩
            obtain ⟨g, hg, hup⟩ := List.mem_map.mp hg'
            refine ⟨g, hg, ?_⟩
            rw [← hgk, ← hup]
            exact (hkeys g hg).symm ▸ rfl
          · rintro ⟨g, hg, hgk⟩
            refine ⟨_, List.mem_map_of_mem _ hg, ?_⟩
            rw [hkeys g hg]
            exact hgk
        rw [hiff, h3 k]
        constructor
        · rintro ⟨hk0, f', hf', hfk⟩
          exact ⟨hk0, f', List.mem_append_left _ hf', hfk⟩
        · rintro ⟨hk0, f', hf', hfk⟩
          rcases List.mem_append.mp hf' with hf' | hf'
          · exact ⟨hk0, f', hf', hfk⟩
          · rw [List.mem_singleton.mp hf'] at hfk
            subst hfk
            obtain ⟨g, hg, hgk⟩ := List.any_eq_true.mp hex
            exact (h3 f.canonicalKey).mp ⟨g, hg, of_decide_eq_true hgk⟩
    · rw [if_neg hex]
      have hnof : ∀ g ∈ gs, g.key ≠ f.canonicalKey := by
        intro g hg he
        exact hex (List.any_eq_true.mpr ⟨g, hg, decide_eq_true he⟩)
      have hnofact : keyFacts facts f.canonicalKey = [] := by
        unfold keyFacts
        rw [List.filter_eq_nil_iff]
        intro a ha hpa
        have hka : a.canonicalKey = f.canonicalKey := of_decide_eq_true hpa
        obtain ⟨g, hg, hgk⟩ := (h3 f.canonicalKey).mpr ⟨hk, a, ha, hka⟩
        exact hnof g hg hgk
      refine ⟨?_, ?_, ?_⟩
      · intro g' hg'
        rcases List.mem_append.mp hg' with hg' | hg'
        · obtain ⟨hg1, hg2, hg3⟩ := h1 g' hg'
          refine ⟨hg1, ?_, hg3⟩
          rw [keyFacts_append, if_neg (fun he => hnof g' hg' he.symm),
            List.append_nil, hg2]
        · rw [List.mem_singleton.mp hg']
          refine ⟨hk, ?_, ?_⟩
          · show [f] = keyFacts (facts ++ [f]) f.canonicalKey
            rw [keyFacts_append, if_pos rfl, hnofact, List.nil_append]
          · show [f.provider] = firstDedup ([f].map (fun f => f.provider))
            rfl
      · rw [List.map_append, List.nodup_append]
        refine ⟨h2, by simp, ?_⟩
        intro k hkmem hkmem'
        simp only [List.map_cons, List.map_nil, List.mem_singleton] at hkmem'
        obtain ⟨g, hg, hgk⟩ := List.mem_map.mp hkmem
        exact hnof g hg (hgk.trans hkmem')
      · intro k
        constructor
        · rintro ⟨g, hg, hgk⟩
          rcases List.mem_append.mp hg with hg | hg
          · obtain ⟨hk0, f', hf', hfk⟩ := (h3 k).mp ⟨g, hg, hgk⟩
            exact ⟨hk0, f', List.mem_append_left _ hf', hfk⟩
          · rw [List.mem_singleton.mp hg] at hgk
            exact ⟨hgk ▸ hk, f, List.mem_append_right _ (List.mem_singleton_self f), hgk⟩
        · rintro ⟨hk0, f', hf', hfk⟩
          rcases List.mem_append.mp hf' with hf' | hf'
          · obtain ⟨g, hg, hgk⟩ := (h3 k).mpr ⟨hk0, f', hf', hfk⟩
            exact ⟨g, List.mem_append_left _ hg, hgk⟩
          · rw [List.mem_singleton.mp hf'] at hfk
            refine ⟨_, List.mem_append_right _ (List.mem_singleton_self _), ?_⟩
            exact hfk

theorem groupsInv_fold :
    ∀ (l facts : List NormalizedFact) (gs : List EvidenceGroup),
      GroupsInv facts gs → GroupsInv (facts ++ l) (l.foldl insertFact gs)
  | [], facts, gs, h => by simpa using h
  | x :: xs, facts, gs, h => by
    have h2 := groupsInv_fold xs (facts ++ [x]) (insertFact gs x)
      (groupsInv_step facts gs x h)
    rw [List.append_assoc] at h2
    simpa using h2

/-- The characterisation of `groupFacts`: each produced group collects
exactly the facts of its non-empty key, in order, with the deduplicated
provider list and the recomputed reliability average; keys are unique and
are exactly the non-empty canonical keys of the input. -/
theorem groupFacts_spec (facts : List NormalizedFact) :
    (∀ g ∈ groupFacts facts,
      g.key ≠ "" ∧ g.facts = keyFacts facts g.key ∧
      g.providers = firstDedup (g.facts.map (fun f => f.provider)) ∧
      g.reliabilityAverage = averageReliability g.facts) ∧
    (((groupFacts facts).map (fun g => g.key)).Nodup) ∧
    (∀ k : String, (∃ g ∈ groupFacts facts, g.key = k) ↔
      (k ≠ "" ∧ ∃ f ∈ facts, f.canonicalKey = k)) := by
  obtain ⟨h1, h2, h3⟩ := groupsInv_fold facts [] [] groupsInv_nil
  rw [List.nil_append] at h1 h3
  refine ⟨?_, ?_, ?_⟩
  · intro g hg
    obtain ⟨g0, hg0, hup⟩ := List.mem_map.mp hg
    obtain ⟨hg1, hg2, hg3⟩ := h1 g0 hg0
    subst hup
    exact ⟨hg1, hg2, hg3, rfl⟩
  · have : ((groupFacts facts).map (fun g => g.key)) =
        ((facts.foldl insertFact []).map (fun g => g.key)) := by
      unfold groupFacts
      rw [List.map_map]
      rfl
    rw [this]
    exact h2
  · intro k
    rw [← h3 k]
    constructor
    · rintro ⟨g, hg, hgk⟩
      obtain ⟨g0, hg0, hup⟩ := List.mem_map.mp hg
      exact ⟨g0, hg0, by rw [← hgk, ← hup]⟩
    · rintro ⟨g0, hg0, hgk⟩
      exact ⟨_, List.mem_map_of_mem _ hg0, hgk⟩

/-- Lexicographic comparison of group measures. -/
def measLe (a b : ℕ × ℚ) : Prop := a.1 < b.1 ∨ (a.1 = b.1 ∧ a.2 ≤ b.2)

theorem measLe_refl (a : ℕ × ℚ) : measLe a a := Or.inr ⟨rfl, le_refl _⟩

theorem measLe_trans {a b c : ℕ × ℚ} (h1 : measLe a b) (h2 : measLe b c) : measLe a c := by
  rcases h1 with h1 | ⟨h1, h1'⟩ <;> rcases h2 with h2 | ⟨h2, h2'⟩
  · exact Or.inl (h1.trans h2)
  · exact Or.inl (by omega)
  · exact Or.inl (by omega)
  · exact Or.inr ⟨h1.trans h2, h1'.trans h2'⟩

theorem measLe_antisymm {a b : ℕ × ℚ} (h1 : measLe a b) (h2 : measLe b a) : a = b := by
  rcases h1 with h1 | ⟨h1, h1'⟩ <;> rcases h2 with h2 | ⟨h2, h2'⟩
  · omega
  · omega
  · omega
  · exact Prod.ext h1 (le_antisymm h1' h2')

theorem sagStep_cases (best group : EvidenceGroup) :
    sagStep best group = best ∨ sagStep best group = group := by
  unfold sagStep
  split
  · exact Or.inr rfl
  · split
    · exact Or.inr rfl
    · exact Or.inl rfl

theorem sagStep_ge_left (best group : EvidenceGroup) :
    measLe (groupMeasure best) (groupMeasure (sagStep best group)) := by
  unfold sagStep
  split
  · rename_i h
    exact Or.inl h
  · split
    · rename_i h
      exact Or.inr ⟨h.1.symm, le_of_lt h.2⟩
    · exact measLe_refl _

theorem sagStep_ge_right (best group : EvidenceGroup) :
    measLe (groupMeasure group) (groupMeasure (sagStep best group)) := by
  unfold sagStep
  split
  · exact measLe_refl _
  · split
    · exact measLe_refl _
    · rename_i hgt hteq
      push_neg at hteq
      rcases Nat.lt_or_ge group.providers.length best.providers.length with hlt | hge
      · exact Or.inl hlt
      · have heq : group.providers.length = best.providers.length := by omega
        exact Or.inr ⟨heq, hteq heq⟩

theorem sagFold_mem : ∀ (l : List EvidenceGroup) (b : EvidenceGroup),
    l.foldl sagStep b ∈ b :: l
  | [], b => List.mem_cons_self b []
  | g :: rest, b => by
    have ih := sagFold_mem rest (sagStep b g)
    rcases sagStep_cases b g with hc | hc <;>
      rcases List.mem_cons.mp ih with him | him
    · rw [List.foldl_cons]
      rw [him, hc]
      exact List.mem_cons_self _ _
    · exact List.mem_cons_of_mem _ (List.mem_cons_of_mem _ him)
    · rw [List.foldl_cons, him, hc]
      exact List.mem_cons_of_mem _ (List.mem_cons_self _ _)
    · exact List.mem_cons_of_mem _ (List.mem_cons_of_mem _ him)

theorem sagFold_ge : ∀ (l : List EvidenceGroup) (b : EvidenceGroup),
    measLe (groupMeasure b) (groupMeasure (l.foldl sagStep b)) ∧
    (∀ g ∈ l, measLe (groupMeasure g) (groupMeasure (l.foldl sagStep b)))
  | [], b => ⟨measLe_refl _, fun g hg => absurd hg (List.not_mem_nil g)⟩
  | g :: rest, b => by
    obtain ⟨ih1, ih2⟩ := sagFold_ge rest (sagStep b g)
    refine ⟨measLe_trans (sagStep_ge_left b g) ih1, ?_⟩
    intro g' hg'
    rcases List.mem_cons.mp hg' with hg' | hg'
    · rw [hg', List.foldl_cons]
      exact measLe_trans (sagStep_ge_right b g) ih1
    · exact ih2 g' hg'

/-- `selectAcceptedGroup` returns a member that is maximal for
(distinct providers, reliability average). -/
theorem selectAcceptedGroup_spec (gs : List EvidenceGroup) (m : EvidenceGroup)
    (h : selectAcceptedGroup gs = some m) :
    m ∈ gs ∧ ∀ g ∈ gs, measLe (groupMeasure g) (groupMeasure m) := by
  match gs, h with
  | g :: rest, h =>
    rw [selectAcceptedGroup, Option.some.injEq] at h
    subst h
    obtain ⟨hge1, hge2⟩ := sagFold_ge rest g
    refine ⟨sagFold_mem rest g, ?_⟩
    intro g' hg'
    rcases List.mem_cons.mp hg' with hg' | hg'
    · rw [hg']
      exact hge1
    · exact hge2 g' hg'

theorem selectAcceptedGroup_none_iff (gs : List EvidenceGroup) :
    selectAcceptedGroup gs = none ↔ gs = [] := by
  cases gs <;> simp [selectAcceptedGroup]

/-- C1 (amended): grouping by canonical key and selecting the accepted
group is permutation-invariant provided no two groups with distinct keys tie
simultaneously on distinct-provider count and reliability average: the
selected canonical key is the same, and the selected groups hold the same
facts up to order with equal provider counts and reliability averages.
(Without the no-tie proviso the selection falls back to insertion order and
is order-dependent — see the counterexample.) -/
theorem C1_selection_perm_amended (facts facts' : List NormalizedFact)
    (hperm : facts.Perm facts')
    (hnoTie : ∀ g1 ∈ groupFacts facts, ∀ g2 ∈ groupFacts facts,
      g1.key ≠ g2.key → groupMeasure g1 ≠ groupMeasure g2) :
    ((selectAcceptedGroup (groupFacts facts)).map (fun g => g.key)) =
      ((selectAcceptedGroup (groupFacts facts')).map (fun g => g.key)) ∧
    (∀ g, selectAcceptedGroup (groupFacts facts) = some g →
      ∀ g', selectAcceptedGroup (groupFacts facts') = some g' →
        g.facts.Perm g'.facts ∧ g.providers.length = g'.providers.length ∧
        g.reliabilityAverage = g'.reliabilityAverage) := by
  have hmeas : ∀ (fs : List NormalizedFact), ∀ g ∈ groupFacts fs,
      groupMeasure g = keyMeasure fs g.key := by
    intro fs g hg
    obtain ⟨_, hf2, hf3, hf4⟩ := (groupFacts_spec fs).1 g hg
    unfold groupMeasure keyMeasure
    rw [hf3, hf4, hf2]
  have hkey : ∀ k, (∃ g ∈ groupFacts facts, g.key = k) ↔
      (∃ g ∈ groupFacts facts', g.key = k) := by
    intro k
    rw [(groupFacts_spec facts).2.2 k, (groupFacts_spec facts').2.2 k]
    constructor <;> rintro ⟨hk0, f, hf, hfk⟩
    · exact ⟨hk0, f, hperm.mem_iff.mp hf, hfk⟩
    · exact ⟨hk0, f, hperm.mem_iff.mpr hf, hfk⟩
  cases hsel : selectAcceptedGroup (groupFacts facts) with
  | none =>
    have h' : selectAcceptedGroup (groupFacts facts') = none := by
      rw [selectAcceptedGroup_none_iff]
      by_contra hne
      obtain ⟨g', hg'⟩ := List.exists_mem_of_ne_nil _ hne
      obtain ⟨g, hg, _⟩ := (hkey g'.key).mpr ⟨g', hg', rfl⟩
      rw [(selectAcceptedGroup_none_iff _).mp hsel] at hg
      exact absurd hg (List.not_mem_nil g)
    rw [h']
    exact ⟨rfl, fun g hgeq => absurd hgeq (by simp)⟩
  | some m =>
    have hm := selectAcceptedGroup_spec (groupFacts facts) m hsel
    cases hsel' : selectAcceptedGroup (groupFacts facts') with
    | none =>
      obtain ⟨g'0, hg'0, _⟩ := (hkey m.key).mp ⟨m, hm.1, rfl⟩
      rw [(selectAcceptedGroup_none_iff _).mp hsel'] at hg'0
      exact absurd hg'0 (List.not_mem_nil g'0)
    | some m' =>
      have hm' := selectAcceptedGroup_spec (groupFacts facts') m' hsel'
      obtain ⟨g'0, hg'0, hg'0k⟩ := (hkey m.key).mp ⟨m, hm.1, rfl⟩
      obtain ⟨g0, hg0, hg0k⟩ := (hkey m'.key).mpr ⟨m', hm'.1, rfl⟩
      have hmg'0 : groupMeasure g'0 = groupMeasure m := by
        rw [hmeas facts' g'0 hg'0, hg'0k, ← keyMeasure_perm hperm m.key,
          ← hmeas facts m hm.1]
      have hmg0 : groupMeasure g0 = groupMeasure m' := by
        rw [hmeas facts g0 hg0, hg0k, keyMeasure_perm hperm m'.key,
          ← hmeas facts' m' hm'.1]
      have hle1 : measLe (groupMeasure m) (groupMeasure m') :=
        hmg'0 ▸ hm'.2 g'0 hg'0
      have hle2 : measLe (groupMeasure m') (groupMeasure m) :=
        hmg0 ▸ hm.2 g0 hg0
      have hmeq : groupMeasure m = groupMeasure m' := measLe_antisymm hle1 hle2
      have hkeyeq : m.key = m'.key := by
        by_contra hne
        have hne0 : g0.key ≠ m.key := by
          rw [hg0k]
          exact fun he => hne he.symm
        exact hnoTie g0 hg0 m hm.1 hne0 (by rw [hmg0, ← hmeq])
      refine ⟨by simp only [Option.map_some']; rw [hkeyeq], ?_⟩
      intro g hgeq g' hgeq'
      rw [Option.some.injEq] at hgeq hgeq'
      subst hgeq
      subst hgeq'
      obtain ⟨_, hgf, _, _⟩ := (groupFacts_spec facts).1 m hm.1
      obtain ⟨_, hgf', _, _⟩ := (groupFacts_spec facts').1 m' hm'.1
      have hfperm : m.facts.Perm m'.facts := by
        rw [hgf, hgf', ← hkeyeq]
        exact hperm.filter _
      have hpair := hmeq
      unfold groupMeasure at hpair
      rw [Prod.mk.injEq] at hpair
      exact ⟨hfperm, hpair.1, hpair.2⟩

/-- A minimal normalized fact: a canonical key, a provider and a
reliability, with every optional field absent. -/
def plainFact (key provider : String) (reliability : ℚ) : NormalizedFact :=
  { provider := provider, canonicalKey := key, display := "", category := .result,
    homeTeam := none, awayTeam := none, winner := none, homeScore := none,
    awayScore := none, award := none, player := none, status := none,
    endTimestamp := none, sourceUrl := none, reliability := reliability }

/-- Two facts with distinct keys whose groups tie on provider count and
reliability average. -/
def c1exFacts : List NormalizedFact :=
  [plainFact "a" "p" (1/2), plainFact "b" "q" (1/2)]

def c1exFactsSwapped : List NormalizedFact :=
  [plainFact "b" "q" (1/2), plainFact "a" "p" (1/2)]

/-- A no-tie input for the C1 witness: key "a" has two providers, key "b"
one. -/
def c1wFacts : List NormalizedFact :=
  [plainFact "a" "p1" (1/2), plainFact "a" "p2" (1/2), plainFact "b" "p3" (1/2)]

def c1wFactsPerm : List NormalizedFact :=
  [plainFact "b" "p3" (1/2), plainFact "a" "p1" (1/2), plainFact "a" "p2" (1/2)]

/-! ## Query classifier: character classes and pattern scanners

ASCII model of the JS regular-expression character classes used by the
classifier (`\s`, `\d`, `\w`, `[A-Z]`); the keyword tables of the source are
pure ASCII, so the ASCII model is exact on them. -/

/-- JS `\s` (the ASCII part). -/
def isWsChar (c : Char) : Bool :=
  c = ' ' || c = '\t' || c = '\n' || c = '\r' || c = '\x0b' || c = '\x0c'

def isDigitChar (c : Char) : Bool := '0' ≤ c && c ≤ '9'

def isAsciiLetter (c : Char) : Bool :=
  ('a' ≤ c && c ≤ 'z') || ('A' ≤ c && c ≤ 'Z')

/-- JS `\w`. -/
def isWordChar (c : Char) : Bool := isAsciiLetter c || isDigitChar c || c = '_'

def isUpperChar (c : Char) : Bool := 'A' ≤ c && c ≤ 'Z'

/-- JS `[\w'-]` (the name-word class of the player/team captures). -/
def isNameChar (c : Char) : Bool := isWordChar c || c = '\'' || c = '-'

/-- JS `[\w'&-]` (the capitalized-team word class). -/
def isTeamWordChar (c : Char) : Bool := isNameChar c || c = '&'

/-- Case-insensitive prefix match: the pattern is given lower-case. -/
def headMatchCI : List Char → List Char → Bool
  | [], _ => true
  | _ :: _, [] => false
  | p :: ps, c :: cs => p == lcChar c && headMatchCI ps cs

/-- The numeric value of a digit run. -/
def digitsVal (l : List Char) : ℕ :=
  l.foldl (fun acc c => acc * 10 + (c.toNat - '0'.toNat)) 0

/-- Parse `\d+(?:\.\d+)?` at the head of the list (as `parseFloat` reads the
regex capture): the value and the number of characters consumed. -/
def parseNum (s : List Char) : Option (ℚ × ℕ) :=
  let ds := s.takeWhile isDigitChar
  if ds.length = 0 then none
  else
    match s.drop ds.length with
    | '.' :: rest2 =>
      let fs := rest2.takeWhile isDigitChar
      if fs.length = 0 then some ((digitsVal ds : ℚ), ds.length)
      else some ((digitsVal ds : ℚ) + (digitsVal fs : ℚ) / (10 ^ fs.length : ℚ),
        ds.length + 1 + fs.length)
    | _ => some ((digitsVal ds : ℚ), ds.length)

/-- `kw` then `\s+` then a number, at the head of the list. -/
def kwNumAt (kw : List Char) (s : List Char) : Option ℚ :=
  if headMatch kw s then
    let rest := (s.drop kw.length)
    let w := (rest.takeWhile isWsChar).length
    if w = 0 then none
    else (parseNum (rest.drop w)).map (fun r => r.1)
  else none

/-- Leftmost occurrence of `kw\s+(\d+(?:\.\d+)?)` (e.g. `/over\s+(\d+)/`). -/
def findKwNum (kw : List Char) : List Char → Option ℚ
  | [] => kwNumAt kw []
  | c :: rest =>
    match kwNumAt kw (c :: rest) with
    | some v => some v
    | none => findKwNum kw rest

/-- `(\d+(?:\.\d+)?)\+\s+(?:line|cards|corners)` at the head of the list. -/
def numPlusUnitAt (s : List Char) : Option ℚ :=
  match parseNum s with
  | none => none
  | some (v, n) =>
    match s.drop n with
    | '+' :: rest =>
      let w := (rest.takeWhile isWsChar).length
      if w = 0 then none
      else
        let t := rest.drop w
        if headMatch "line".toList t || headMatch "cards".toList t ||
            headMatch "corners".toList t then some v
        else none
    | _ => none

def findNumPlusUnit : List Char → Option ℚ
  | [] => none
  | c :: rest =>
    match numPlusUnitAt (c :: rest) with
    | some v => some v
    | none => findNumPlusUnit rest

/-- `(?:SYM2|SYM1)\s*(\d+(?:\.\d+)?)` at the head (`>=`/`≥` or `<=`/`≤`). -/
def cmpNumAt (sym2 : List Char) (sym1 : Char) (s : List Char) : Option ℚ :=
  let after : Option (List Char) :=
    if headMatch sym2 s then some (s.drop 2)
    else
      match s with
      | c :: rest => if c = sym1 then some rest else none
      | [] => none
  match after with
  | none => none
  | some rest =>
    let w := (rest.takeWhile isWsChar).length
    (parseNum (rest.drop w)).map (fun r => r.1)

def findCmpNum (sym2 : List Char) (sym1 : Char) : List Char → Option ℚ
  | [] => none
  | c :: rest =>
    match cmpNumAt sym2 sym1 (c :: rest) with
    | some v => some v
    | none => findCmpNum sym2 sym1 rest

/-- `w₀\s+w₁\s+…\s+wₙ` at the head of the list. -/
def phraseAt : List (List Char) → List Char → Bool
  | [], _ => true
  | [w], s => headMatch w s
  | w :: w2 :: ws, s =>
    headMatch w s &&
      (let rest := s.drop w.length
       let k := (rest.takeWhile isWsChar).length
       decide (0 < k) && phraseAt (w2 :: ws) (rest.drop k))

/-- Occurrence of the `\s+`-separated phrase anywhere in the list. -/
def hasPhrase (words : List (List Char)) : List Char → Bool
  | [] => phraseAt words []
  | c :: rest => phraseAt words (c :: rest) || hasPhrase words rest

/-- `kw` immediately followed by one `\s` character, anywhere (`/over\s/`). -/
def hasKwThenWs (kw : List Char) : List Char → Bool
  | [] => false
  | c :: rest =>
    (headMatch kw (c :: rest) &&
      (match (c :: rest).drop kw.length with
       | c2 :: _ => isWsChar c2
       | [] => false)) ||
    hasKwThenWs kw rest

/-- `/\d+\.5/` as a presence test. -/
def hasDigitDot5 : List Char → Bool
  | d :: '.' :: '5' :: _ => isDigitChar d
  | _ :: rest => hasDigitDot5 rest
  | [] => false

/-- `/\d+\+/` as a presence test. -/
def hasDigitPlus : List Char → Bool
  | d :: '+' :: _ => isDigitChar d
  | _ :: rest => hasDigitPlus rest
  | [] => false

/-- `/OT\b/i`: `ot` with a word boundary after it. -/
def hasOtBoundary : List Char → Bool
  | 'o' :: 't' :: rest =>
    (match rest with
     | [] => true
     | c :: _ => !isWordChar c) ||
    hasOtBoundary ('t' :: rest)
  | _ :: rest => hasOtBoundary rest
  | [] => false

/-- `/did\s+.*(win|lose|draw|tie|happen)/` applied to the lower-cased query:
after `did` and at least one whitespace character, one of the result words
must occur with no line terminator in between (JS `.` matches neither `\n`
nor `\r`). -/
def resultWordBeforeNewline : List Char → Bool
  | [] => false
  | c :: rest =>
    headMatch "win".toList (c :: rest) || headMatch "lose".toList (c :: rest) ||
    headMatch "draw".toList (c :: rest) || headMatch "tie".toList (c :: rest) ||
    headMatch "happen".toList (c :: rest) ||
    (!(c = '\n' || c = '\r') && resultWordBeforeNewline rest)

def didResultAt (s : List Char) : Bool :=
  headMatch "did".toList s &&
    (let rest := s.drop 3
     let w := (rest.takeWhile isWsChar).length
     decide (0 < w) && resultWordBeforeNewline (rest.drop w))

def didResultTest : List Char → Bool
  | [] => false
  | c :: rest => didResultAt (c :: rest) || didResultTest rest

/-- `hasPhrase` over `String` keyword lists. -/
def hasPhraseS (ws : List String) (s : List Char) : Bool :=
  hasPhrase (ws.map (fun w => w.toList)) s

/-! ## Query metadata and date detection (src/utils.ts) -/

def MONTHS : List String :=
  ["january", "february", "march", "april", "may", "june",
   "july", "august", "september", "october", "november", "december"]

def BASKETBALL_KEYWORDS : List String :=
  ["nba", "basketball", "lakers", "warriors", "celtics", "heat",
   "bucks", "suns", "clippers", "bulls", "knicks", "76ers"]

/-- `QueryMetadata` (src/utils.ts). -/
structure QueryMetadata where
  original : String
  normalized : String
  sport : Option String
  date : Option String
  teams : List String
  deriving DecidableEq, Repr

/-- ASCII model of `String.trim`. -/
def trimStr (s : String) : String :=
  ⟨((s.data.dropWhile isWsChar).reverse.dropWhile isWsChar).reverse⟩

def isLeapYear (y : ℕ) : Bool := (y % 4 = 0 && y % 100 ≠ 0) || y % 400 = 0

/-- Days in month `m` (1-12) of year `y`, proleptic Gregorian as in the JS
`Date` model. -/
def monthLen (y m : ℕ) : ℕ :=
  if m = 2 then (if isLeapYear y then 29 else 28)
  else if m = 4 || m = 6 || m = 9 || m = 11 then 30
  else 31

def pad2 (n : ℕ) : String := if n < 10 then "0" ++ toString n else toString n

def pad4 (n : ℕ) : String :=
  if n < 10 then "000" ++ toString n
  else if n < 100 then "00" ++ toString n
  else if n < 1000 then "0" ++ toString n
  else toString n

/-- `toISOString().slice(0, 10)` of a UTC date with the given components. -/
def isoDayString (y m d : ℕ) : String := pad4 y ++ "-" ++ pad2 m ++ "-" ++ pad2 d

/-- `\d{4}-\d{2}-\d{2}` at the head of the list (the ISO branch of
`detectIsoDate`); returns the matched ten characters. -/
def isoAt : List Char → Option (List Char)
  | a :: b :: c :: d :: '-' :: e :: f :: '-' :: g :: h :: _ =>
    if isDigitChar a && isDigitChar b && isDigitChar c && isDigitChar d &&
        isDigitChar e && isDigitChar f && isDigitChar g && isDigitChar h then
      some [a, b, c, d, '-', e, f, '-', g, h]
    else none
  | _ => none

def findIso : List Char → Option (List Char)
  | [] => none
  | c :: rest =>
    match isoAt (c :: rest) with
    | some m => some m
    | none => findIso rest

/-- First month name (in table order, i.e. regex-alternation order) that is
a prefix here; returns its 1-based month number. -/
def monthPrefixAux : ℕ → List String → List Char → Option ℕ
  | _, [], _ => none
  | i, m :: rest, s =>
    if headMatch m.toList s then some i else monthPrefixAux (i + 1) rest s

def monthPrefix (s : List Char) : Option ℕ := monthPrefixAux 1 MONTHS s

/-- `(month)\s+\d{1,2}(?:st|nd|rd|th)?(?:,\s*\d{4})?` at the head of the
(already lower-cased) list: month number, day, and the optional year. -/
def monthDateAt (s : List Char) : Option (ℕ × ℕ × Option ℕ) :=
  match monthPrefix s with
  | none => none
  | some m =>
    let mlen := ((MONTHS.get? (m - 1)).getD "").length
    let rest := s.drop mlen
    let w := (rest.takeWhile isWsChar).length
    if w = 0 then none
    else
      let t := rest.drop w
      let ds := (t.takeWhile isDigitChar).take 2
      if ds.length = 0 then none
      else
        let t2 := t.drop ds.length
        let t3 :=
          if headMatch "st".toList t2 || headMatch "nd".toList t2 ||
              headMatch "rd".toList t2 || headMatch "th".toList t2
          then t2.drop 2 else t2
        let year : Option ℕ :=
          match t3 with
          | ',' :: t4 =>
            let w2 := (t4.takeWhile isWsChar).length
            let ys := (t4.drop w2).takeWhile isDigitChar
            if 4 ≤ ys.length then some (digitsVal (ys.take 4)) else none
          | _ => none
        some (m, digitsVal ds, year)

def findMonthDate : List Char → Option (ℕ × ℕ × Option ℕ)
  | [] => none
  | c :: rest =>
    match monthDateAt (c :: rest) with
    | some r => some r
    | none => findMonthDate rest

/-- `\d{1,2}` followed by a slash-or-hyphen separator, with the one-digit
fallback of the regex engine (no cross-group backtracking can arise: a
character cannot be both a digit and a separator). -/
def grab12 : List Char → Option (ℕ × List Char)
  | a :: b :: sep :: rest =>
    if isDigitChar a && isDigitChar b && (sep = '/' || sep = '-') then
      some (digitsVal [a, b], rest)
    else if isDigitChar a && (b = '/' || b = '-') then
      some (digitsVal [a], sep :: rest)
    else none
  | [a, b] =>
    if isDigitChar a && (b = '/' || b = '-') then some (digitsVal [a], [])
    else none
  | _ => none

/-- The numeric date pattern `\d{1,2}`, separator, `\d{1,2}`, separator,
`\d{2,4}` (separators slash or hyphen) at the head of the list. -/
def numDateAt (s : List Char) : Option (ℕ × ℕ × ℕ) :=
  match grab12 s with
  | none => none
  | some (a, t1) =>
    match grab12 t1 with
    | none => none
    | some (b, t2) =>
      let ds := (t2.takeWhile isDigitChar).take 4
      if 2 ≤ ds.length then some (a, b, digitsVal ds) else none

def findNumDate : List Char → Option (ℕ × ℕ × ℕ)
  | [] => none
  | c :: rest =>
    match numDateAt (c :: rest) with
    | some r => some r
    | none => findNumDate rest

/-- `normalizeNumericDate` (src/utils.ts).  The source builds
`new Date(year, a - 1, b)` in host-local time and accepts it when the UTC
components read back unchanged; `Date` rolls out-of-range months and
days over, so on a UTC host this holds exactly when the components are in
range (UTC host assumed throughout, as for every `Date` use here). -/
def normalizeNumericDate (a b c : ℕ) : Option String :=
  let year := if c < 100 then 2000 + c else c
  if 1 ≤ a ∧ a ≤ 12 ∧ 1 ≤ b ∧ b ≤ monthLen year a then
    some (isoDayString year a b)
  else if 1 ≤ b ∧ b ≤ 12 ∧ 1 ≤ a ∧ a ≤ monthLen year b then
    some (isoDayString year b a)
  else none

/-- `detectIsoDate` (src/utils.ts).  The month branch models V8's `Date`
parser on `"month day(, year)?"` forms: year defaults to 2001, the parse is
valid exactly when the day is in range for the month, and the ordinal
suffix is treated like the plain form. -/
def detectIsoDate (value : String) : Option String :=
  match findIso value.data with
  | some m => some ⟨m⟩
  | none =>
    let numeric : Option String :=
      match findNumDate value.data with
      | some (a, b, c) => normalizeNumericDate a b c
      | none => none
    match findMonthDate value.data with
    | some (m, day, yearOpt) =>
      let year := yearOpt.getD 2001
      if 1 ≤ day ∧ day ≤ monthLen year m then some (isoDayString year m day)
      else numeric
    | none => numeric

/-- `extractQueryMetadata` (src/utils.ts). -/
def extractQueryMetadata (query : String) : QueryMetadata :=
  let normalized := trimStr query
  let lower := lowerStr normalized
  let sport : Option String :=
    if BASKETBALL_KEYWORDS.any (fun kw => hasSub kw.toList lower.data) then
      some "basketball"
    else none
  let teams := BASKETBALL_KEYWORDS.filter
    (fun kw => kw != "nba" && kw != "basketball" && hasSub kw.toList lower.data)
  { original := query
    normalized := normalized
    sport := sport
    date := detectIsoDate lower
    teams := teams }

/-! ## Statistics query classifier (src/unnamed/part_004, queryClassifier) -/

def STATISTIC_SYNONYMS : List (String × List String) :=
  [("yellow_cards", ["yellow card", "booking", "caution"]),
   ("red_cards", ["red card", "sent off"]),
   ("total_cards", ["total cards", "cards overall", "over cards"]),
   ("corners", ["corner", "corner kick"]),
   ("shots_on_target", ["shots on target", "shot on goal", "shot on frame"]),
   ("shots_total", ["shot", "shots total", "shots overall"]),
   ("fouls", ["foul", "fouls committed", "personal fouls"]),
   ("possession", ["possession", "ball possession"]),
   ("passes", ["passes", "pass completed"]),
   ("pass_accuracy", ["pass accuracy", "passing accuracy"]),
   ("key_passes", ["key pass"]),
   ("saves", ["save", "goalkeeper save"]),
   ("tackles", ["tackle"]),
   ("free_kicks", ["free kick"]),
   ("penalties_awarded", ["penalties awarded", "penalty won"]),
   ("penalties_scored", ["penalties scored", "penalty scored"]),
   ("technical_fouls", ["technical foul"]),
   ("flagrant_fouls", ["flagrant foul"]),
   ("turnovers", ["turnover"]),
   ("rebounds_offensive", ["offensive rebound"]),
   ("rebounds_defensive", ["defensive rebound"]),
   ("rebounds_total", ["total rebounds", "rebound"]),
   ("blocks", ["block", "blocked shot"]),
   ("steals", ["steal"]),
   ("three_pointers_made", ["three pointer made", "3pt made"]),
   ("three_pointers_attempted", ["three pointer attempted", "3pt attempted"]),
   ("free_throws_made", ["free throw made"]),
   ("free_throws_attempted", ["free throw attempted"]),
   ("minutes_played", ["minutes played", "playing time"]),
   ("penalties", ["penalties", "penalty"]),
   ("penalty_yards", ["penalty yards"]),
   ("interceptions", ["interception", "interceptions"]),
   ("fumbles", ["fumble"]),
   ("sacks", ["sack"]),
   ("time_of_possession", ["time of possession"]),
   ("third_down_conversions", ["third down conversion"]),
   ("red_zone_efficiency", ["red zone", "red-zone efficiency"]),
   ("goals", ["goal", "goals scored"]),
   ("assists", ["assist", "assists"])]

def inferStatisticType (lower : List Char) : Option String :=
  match STATISTIC_SYNONYMS.find?
      (fun e => e.2.any (fun syn => hasSub syn.toList lower)) with
  | some e => some e.1
  | none =>
    if hasPhraseS ["shots", "on", "goal"] lower then some "shots_on_target"
    else if hasPhraseS ["total", "cards"] lower then some "total_cards"
    else none

def determineAggregation (lower : List Char) : String :=
  if hasPhraseS ["per", "team"] lower then "per_team"
  else if hasPhraseS ["per", "player"] lower || hasPhraseS ["each", "player"] lower then
    "per_player"
  else if hasSub "average".toList lower || hasSub "avg".toList lower ||
      hasSub "mean".toList lower then "average"
  else if hasSub "difference".toList lower || hasSub "margin".toList lower then
    "difference"
  else "total"

def inferPeriod (lower : List Char) : String :=
  if hasPhraseS ["first", "half"] lower || hasPhraseS ["1st", "half"] lower then
    "first_half"
  else if hasPhraseS ["second", "half"] lower || hasPhraseS ["2nd", "half"] lower then
    "second_half"
  else if hasPhraseS ["extra", "time"] lower || hasPhraseS ["after", "extra"] lower then
    "extra_time"
  else if hasSub "overtime".toList lower || hasOtBoundary lower then "overtime"
  else if hasSub "quarter".toList lower then "quarter"
  else "full_time"

/-- One entry of `THRESHOLD_KEYWORDS`: the shape of its regex. -/
inductive ThresholdPattern
  | kwNum (kw : String)
  | numPlusUnit
  | cmpNum (sym2 : String) (sym1 : Char)
  deriving DecidableEq, Repr

def runThresholdPattern : ThresholdPattern → List Char → Option ℚ
  | .kwNum kw, s => findKwNum kw.toList s
  | .numPlusUnit, s => findNumPlusUnit s
  | .cmpNum sym2 sym1, s => findCmpNum sym2.toList sym1 s

def THRESHOLD_KEYWORDS : List (ThresholdPattern × String) :=
  [(.kwNum "over", ">"), (.kwNum "under", "<"),
   (.kwNum "more than", ">"), (.kwNum "less than", "<"),
   (.kwNum "at least", ">="), (.kwNum "at most", "<="),
   (.numPlusUnit, ">="),
   (.cmpNum ">=" '≥', ">="), (.cmpNum "<=" '≤', "<=")]

/-- `resolveThreshold` (the `parseFloat` of the digit capture is never
`NaN`, so the `Number.isNaN` guard of the source never fires). -/
def resolveThreshold (lower : List Char) : Option (String × ℚ) :=
  THRESHOLD_KEYWORDS.findSome?
    (fun e => (runThresholdPattern e.1 lower).map (fun v => (e.2, v)))

/-- First word of a name capture: `first` is the class of its head
(`[A-Z]`, caseless where the regex has the `i` flag) and `word` the class
of the following `+`-run. -/
def nameWordAt (first word : Char → Bool) : List Char → Option (List Char × List Char)
  | c :: rest =>
    if first c then
      let run := rest.takeWhile word
      if run.length = 0 then none
      else some (c :: run, rest.drop run.length)
    else none
  | [] => none

/-- Up to `k` further greedy `\s+word` extensions of a capture. -/
def nameExtend (first word : Char → Bool) : ℕ → List Char × List Char → List Char × List Char
  | 0, r => r
  | k + 1, (acc, s) =>
    let w := (s.takeWhile isWsChar).length
    if w = 0 then (acc, s)
    else
      match nameWordAt first word (s.drop w) with
      | some (wd, rest2) => nameExtend first word k (acc ++ s.take w ++ wd, rest2)
      | none => (acc, s)

/-- `[A-Z][\w'-]+(?:\s+[A-Z][\w'-]+){0,2}`-style capture at the head of the
list: the captured characters and the remainder after them. -/
def nameCaptureAt (first word : Char → Bool) (s : List Char) :
    Option (List Char × List Char) :=
  (nameWordAt first word s).map (fun r => nameExtend first word 2 r)

/-- `kw\s+(capture)` at the head, keyword matched caselessly (`i` flag). -/
def kwCaptureAt (kw : List Char) (s : List Char) : Option (List Char) :=
  if headMatchCI kw s then
    let rest := s.drop kw.length
    let w := (rest.takeWhile isWsChar).length
    if w = 0 then none
    else ((nameCaptureAt isAsciiLetter isNameChar (rest.drop w)).map (fun r => r.1))
  else none

/-- Leftmost `(?:kw₁|kw₂|…)\s+([A-Z][\w'-]+(?:\s+[A-Z][\w'-]+){0,2})` with
the `i` flag, returning the capture. -/
def findKwAltCapture (kws : List String) : List Char → Option (List Char)
  | [] => none
  | c :: rest =>
    match kws.findSome? (fun kw => kwCaptureAt kw.toList (c :: rest)) with
    | some r => some r
    | none => findKwAltCapture kws rest

/-- `extractPlayerCandidate`: the capture never starts or ends in
whitespace, so the source's `.trim()` is the identity (applied anyway). -/
def extractPlayerCandidate (query : String) : Option String :=
  match findKwAltCapture ["did"] query.data with
  | some cap => some (trimStr ⟨cap⟩)
  | none =>
    match findKwAltCapture ["by", "from", "for"] query.data with
    | some cap => some (trimStr ⟨cap⟩)
    | none => none

/-- `extractTeamFromQuery`; `existing` is `metadata.teams[0]`, a non-empty
keyword whenever present, so JS truthiness is `isSome`. -/
def extractTeamFromQuery (query : String) (existing : Option String) : Option String :=
  match existing with
  | some t => some t
  | none =>
    match findKwAltCapture ["team", "for"] query.data with
    | some cap => some (trimStr ⟨cap⟩)
    | none => none

/-- `/\b(?:vs\.?|versus|against)\b/i` at the current position: `prev` is the
previous character (for the leading `\b`); returns the match length.  With
`vs.` the trailing `\b` sits after the dot and needs a word character next;
when that fails the engine backtracks to plain `vs`, whose trailing
boundary at the dot always holds. -/
def delimAt (prev : Option Char) (s : List Char) : Option ℕ :=
  let boundaryBefore := match prev with | none => true | some p => !isWordChar p
  let boundaryAfter : List Char → Bool :=
    fun t => match t with | [] => true | c :: _ => !isWordChar c
  if !boundaryBefore then none
  else if headMatch "vs".toList s then
    match s.drop 2 with
    | '.' :: rest2 =>
      if (match rest2 with | c :: _ => isWordChar c | [] => false) then some 3
      else some 2
    | rest2 => if boundaryAfter rest2 then some 2 else none
  else if headMatch "versus".toList s && boundaryAfter (s.drop 6) then some 6
  else if headMatch "against".toList s && boundaryAfter (s.drop 7) then some 7
  else none

/-- Leftmost delimiter match: its index and length. -/
def findDelim : Option Char → ℕ → List Char → Option (ℕ × ℕ)
  | _, _, [] => none
  | prev, idx, c :: rest =>
    match delimAt prev (c :: rest) with
    | some len => some (idx, len)
    | none => findDelim (some c) (idx + 1) rest

/-- `\b(on|at)\b` (with `i`) at the current position. -/
def onAtAt (prev : Option Char) (s : List Char) : Bool :=
  let boundaryBefore := match prev with | none => true | some p => !isWordChar p
  boundaryBefore &&
    (headMatchCI "on".toList s || headMatchCI "at".toList s) &&
    (match s.drop 2 with | [] => true | c :: _ => !isWordChar c)

def findOnAtIdx : Option Char → ℕ → List Char → Option ℕ
  | _, _, [] => none
  | prev, idx, c :: rest =>
    if onAtAt prev (c :: rest) then some idx
    else findOnAtIdx (some c) (idx + 1) rest

/-- `before.split(/\b(on|at)\b/i)[0]`. -/
def splitOnAt (s : String) : String :=
  match findOnAtIdx none 0 s.data with
  | some i => ⟨s.data.take i⟩
  | none => s

/-- `\b(on|at|\?|$)/i` at the current position.  The leading `\b` before
`?` needs a word character on the left (`?` itself is non-word); the `$`
alternative splits off an empty tail, leaving `[0]` the whole string, the
same as no match. -/
def onAtQAt (prev : Option Char) (s : List Char) : Bool :=
  let leftWord := match prev with | none => false | some p => isWordChar p
  (!leftWord &&
    (headMatchCI "on".toList s || headMatchCI "at".toList s) &&
    (match s.drop 2 with | [] => true | c :: _ => !isWordChar c)) ||
  (leftWord && (match s with | '?' :: _ => true | _ => false))

def findOnAtQIdx : Option Char → ℕ → List Char → Option ℕ
  | _, _, [] => none
  | prev, idx, c :: rest =>
    if onAtQAt prev (c :: rest) then some idx
    else findOnAtQIdx (some c) (idx + 1) rest

/-- `after.split(/\b(on|at|\?|$)/i)[0]`. -/
def splitOnAtQ (s : String) : String :=
  match findOnAtQIdx none 0 s.data with
  | some i => ⟨s.data.take i⟩
  | none => s

/-- All matches of the global `TEAM_IN_QUERY_REGEX`
`/(\b[A-Z][\w'&-]+(?:\s+[A-Z][\w'&-]+){0,2})/g` (no `i` flag: real upper
case), resuming after each match end as `matchAll` does.  `fuel` bounds the
recursion; every step consumes at least one character, so `s.length`
suffices. -/
def collectCapsFuel : ℕ → Option Char → List Char → List String
  | 0, _, _ => []
  | _ + 1, _, [] => []
  | fuel + 1, prev, c :: rest =>
    let boundaryBefore := match prev with | none => true | some p => !isWordChar p
    if boundaryBefore then
      match nameCaptureAt isUpperChar isTeamWordChar (c :: rest) with
      | some (cap, rest2) => (⟨cap⟩ : String) :: collectCapsFuel fuel cap.getLast? rest2
      | none => collectCapsFuel fuel (some c) rest
    else collectCapsFuel fuel (some c) rest

def collectCapitalized (query : String) : List String :=
  (collectCapsFuel query.data.length none query.data).filter (fun t => 2 < t.length)

/-- `extractMatchEntities` (home, away). -/
def extractMatchEntities (query : String) (metadata : QueryMetadata) :
    Option String × Option String :=
  let fromDelim : Option (String × String) :=
    match findDelim none 0 (lowerStr query).data with
    | some (idx, len) =>
      let before := trimStr ⟨query.data.take idx⟩
      let after := trimStr ⟨query.data.drop (idx + len)⟩
      let homeTeam := trimStr (splitOnAt before)
      let awayTeam := trimStr (splitOnAtQ after)
      if homeTeam != "" && awayTeam != "" then some (homeTeam, awayTeam) else none
    | none => none
  match fromDelim with
  | some (h, a) => (some h, some a)
  | none =>
    match metadata.teams with
    | t0 :: t1 :: _ => (some t0, some t1)
    | _ =>
      match collectCapitalized query with
      | c0 :: c1 :: _ => (some c0, some c1)
      | _ => (none, none)

/-- The hint regex of `determineQueryType`:
`/over\s|under\s|more than|less than|at least|at most|\d+\.5|\d+\+/`. -/
def thresholdHint (lower : List Char) : Bool :=
  hasKwThenWs "over".toList lower || hasKwThenWs "under".toList lower ||
  hasSub "more than".toList lower || hasSub "less than".toList lower ||
  hasSub "at least".toList lower || hasSub "at most".toList lower ||
  hasDigitDot5 lower || hasDigitPlus lower

/-- `determineQueryType`; every entity string put in the record is
non-empty, so JS truthiness is `isSome`. -/
def determineQueryType (statType : String)
    (matchEnt : Option String × Option String)
    (player team : Option String) (lower : List Char) : StatQueryType :=
  if thresholdHint lower then .threshold
  else if player.isSome then .player_statistic
  else if team.isSome && matchEnt.1.isNone && matchEnt.2.isNone then .team_aggregate
  else if statType = "total_cards" then .team_aggregate
  else .match_statistic

/-- Days since 1970-01-01 of a proleptic-Gregorian civil date (the JS
`Date` UTC arithmetic); the divisions only ever see non-negative operands
for the years in scope, so the rounding convention is immaterial. -/
def daysFromCivil (y m d : ℤ) : ℤ :=
  let yAdj := if m ≤ 2 then y - 1 else y
  let era := (if 0 ≤ yAdj then yAdj else yAdj - 399) / 400
  let yoe := yAdj - era * 400
  let doy := (153 * (if 2 < m then m - 3 else m + 9) + 2) / 5 + d - 1
  let doe := yoe * 365 + yoe / 4 - yoe / 100 + doy
  era * 146097 + doe - 719468

/-- Epoch milliseconds of `new Date(date + "T23:59:59Z")` for a detected
ISO day string; `none` models the `Invalid Date` of out-of-range
components (whose `NaN` comparison below is false). -/
def isoDayEpochMs (date : String) : Option ℤ :=
  let l := date.data
  let y := digitsVal (l.take 4)
  let m := digitsVal ((l.drop 5).take 2)
  let d := digitsVal ((l.drop 8).take 2)
  if 1 ≤ m ∧ m ≤ 12 ∧ 1 ≤ d ∧ d ≤ monthLen y m then
    some (daysFromCivil y m d * 86400000 + 86399000)
  else none

/-- `classifyStatisticsQuery` (src/unnamed/part_004); `now` is the
epoch-millisecond reading of `new Date()` at the call. -/
def classifyStatisticsQuery (rawQuery : String) (now : ℤ) : Option StatisticsQuery :=
  let metadata := extractQueryMetadata rawQuery
  let lower := (lowerStr rawQuery).data
  match inferStatisticType lower with
  | none => none
  | some statisticType =>
    let matchEntities := extractMatchEntities rawQuery metadata
    let player := extractPlayerCandidate rawQuery
    let team := extractTeamFromQuery rawQuery metadata.teams.head?
    let thresholdInfo := resolveThreshold lower
    let canResolveNow :=
      match metadata.date with
      | some d =>
        match isoDayEpochMs d with
        | some t => decide (900000 ≤ now - t)
        | none => false
      | none => false
    some { queryType := determineQueryType statisticType matchEntities player team lower
           statisticType := statisticType
           matchHomeTeam := matchEntities.1
           matchAwayTeam := matchEntities.2
           matchCompetition := metadata.sport
           team := team
           player := player
           aggregation := determineAggregation lower
           period := inferPeriod lower
           threshold := thresholdInfo.map (fun t => t.2)
           comparator := thresholdInfo.map (fun t => t.1)
           eventEndTime := metadata.date
           canResolveNow := canResolveNow
           rawText := rawQuery }

/-! ## Structured outcome query parser (src/parsers/query-schema.ts) -/

def SCORE_HINTS : List String := ["score", "scoreline", "final score", "points"]

/-- `parseQueryToStructuredRequest` restricted to the fields kept in
`StructuredQuery`.  `metadata.sport` is only ever `none` or
`"basketball"`, so the source's `soccer` branch is dead; the zod
`safeParse` accepts every record this builds (sport in the enum, date of
shape `\d{4}-\d{2}-\d{2}` whenever present, at most two teams), so
`result.data` is the record itself. -/
def parseQueryToStructuredRequest (query : String) : StructuredQuery :=
  let metadata := extractQueryMetadata query
  let sport := if metadata.sport = some "basketball" then "basketball" else "general"
  let lower := (lowerStr query).data
  let questionType :=
    if didResultTest lower then QuestionType.did_result_happen
    else if hasPhraseS ["who", "won"] lower || hasSub "winner".toList lower ||
        hasSub "victor".toList lower then QuestionType.who_won
    else if SCORE_HINTS.any (fun hint => hasSub hint.toList lower) then
      QuestionType.scoreline
    else if hasSub "award".toList lower || hasSub "mvp".toList lower ||
        hasPhraseS ["player", "of", "the", "match"] lower ||
        hasPhraseS ["golden", "boot"] lower ||
        hasPhraseS ["top", "scorer"] lower then QuestionType.player_award
    else QuestionType.other
  { sport := sport
    date := metadata.date
    teams := metadata.teams.take 2
    questionType := questionType }

/-! ## Circuit breaker (src/utils.ts, class CircuitBreaker) -/

/-- The mutable breaker cell `{failures, openedAt}`; `openedAt` is the
epoch-ms opening time. -/
structure CBState where
  failures : ℕ
  openedAt : Option ℤ
  deriving DecidableEq, Repr

inductive CBOutcome
  | circuitOpen | success | failure
  deriving DecidableEq, Repr

/-- What one `exec` call did: `circuitOpen` models the thrown
`CircuitOpenError`, `failure` the rethrown action error; `invoked` records
whether the wrapped action ran at all. -/
structure CBExecResult where
  outcome : CBOutcome
  invoked : Bool
  state : CBState
  deriving DecidableEq, Repr

/-- `CircuitBreaker.isOpen`, with its reset side effect once the cooldown
has elapsed (`elapsed > cooldownMs`). -/
def cbIsOpen (cooldownMs : ℤ) (s : CBState) (now : ℤ) : Bool × CBState :=
  match s.openedAt with
  | none => (false, s)
  | some openedAt =>
    if now - openedAt > cooldownMs then (false, ⟨0, none⟩)
    else (true, s)

/-- `CircuitBreaker.recordFailure`. -/
def cbRecordFailure (failureThreshold : ℕ) (s : CBState) (now : ℤ) : CBState :=
  { failures := s.failures + 1
    openedAt := if s.failures + 1 ≥ failureThreshold then some now else s.openedAt }

/-- `CircuitBreaker.exec`: `now` is the call's start time, `ok` whether the
wrapped action would succeed.  When the breaker is open the action is not
invoked and `CircuitOpenError` is thrown; otherwise success resets the cell
and failure records against it. -/
def cbExec (failureThreshold : ℕ) (cooldownMs : ℤ) (s : CBState) (now : ℤ)
    (ok : Bool) : CBExecResult :=
  match cbIsOpen cooldownMs s now with
  | (true, s1) => { outcome := .circuitOpen, invoked := false, state := s1 }
  | (false, s1) =>
    if ok then { outcome := .success, invoked := true, state := ⟨0, none⟩ }
    else { outcome := .failure, invoked := true,
           state := cbRecordFailure failureThreshold s1 now }

/-- A run of consecutive failing calls at the given start times. -/
def cbFailRun (failureThreshold : ℕ) (cooldownMs : ℤ) (s : CBState)
    (times : List ℤ) : CBState :=
  times.foldl (fun st t => (cbExec failureThreshold cooldownMs st t false).state) s

/-- Running exactly the missing number of consecutive failures from a closed
cell opens the breaker at the last failure's time. -/
theorem cbFailRun_opens :
    ∀ (times : List ℤ) (hne : times ≠ []) (failureThreshold : ℕ) (cooldownMs : ℤ)
      (k : ℕ), k + times.length = failureThreshold →
      cbFailRun failureThreshold cooldownMs ⟨k, none⟩ times =
        ⟨failureThreshold, some (times.getLast hne)⟩
  | [t], _, th, cd, k, hk => by
    have hk1 : k + 1 = th := by simpa using hk
    simp [cbFailRun, cbExec, cbIsOpen, cbRecordFailure, hk1]
  | t :: t2 :: rest, _, th, cd, k, hk => by
    have hlt : ¬ (k + 1 ≥ th) := by
      simp only [List.length_cons] at hk
      omega
    have hstep : (cbExec th cd ⟨k, none⟩ t false).state = ⟨k + 1, none⟩ := by
      simp [cbExec, cbIsOpen, cbRecordFailure, hlt]
    have hk' : (k + 1) + (t2 :: rest).length = th := by
      simp only [List.length_cons] at hk ⊢
      omega
    have ih := cbFailRun_opens (t2 :: rest) (by simp) th cd (k + 1) hk'
    show cbFailRun th cd (cbExec th cd ⟨k, none⟩ t false).state (t2 :: rest) = _
    rw [hstep, ih]
    congr 1

/-- C9: `failureThreshold` consecutive recorded failures open the breaker
at the last failure time; any later `exec` starting within `cooldownMs` of
the opening throws `CircuitOpenError` without invoking the action and
leaves the cell unchanged, while the first call starting more than
`cooldownMs` after the opening is attempted and, on success, resets the
failure count to 0. -/
theorem C9_circuit_breaker (failureThreshold : ℕ) (cooldownMs : ℤ)
    (times : List ℤ) (hne : times ≠ [])
    (hlen : times.length = failureThreshold)
    (tOpen : ℤ) (hopen : tOpen = times.getLast hne)
    (now now2 : ℤ) (ok : Bool)
    (hwithin : now - tOpen ≤ cooldownMs)
    (hafter : cooldownMs < now2 - tOpen) :
    cbFailRun failureThreshold cooldownMs ⟨0, none⟩ times =
      ⟨failureThreshold, some tOpen⟩ ∧
    cbExec failureThreshold cooldownMs ⟨failureThreshold, some tOpen⟩ now ok =
      { outcome := .circuitOpen, invoked := false,
        state := ⟨failureThreshold, some tOpen⟩ } ∧
    cbExec failureThreshold cooldownMs ⟨failureThreshold, some tOpen⟩ now2 true =
      { outcome := .success, invoked := true, state := ⟨0, none⟩ } := by
  subst hopen
  refine ⟨cbFailRun_opens times hne failureThreshold cooldownMs 0 (by simpa using hlen),
    ?_, ?_⟩
  · have hno : ¬ (now - times.getLast hne > cooldownMs) := by omega
    simp [cbExec, cbIsOpen, hno]
  · simp [cbExec, cbIsOpen, hafter]

def c9exTimes : List ℤ := [0, 1, 2]

/-- Witness for C9: threshold 3, cooldown 15 s, failures at 0/1/2 ms, a
blocked call at 15 002 ms and a successful retry at 20 000 ms. -/
theorem C9_circuit_breaker_witness :
    cbFailRun 3 15000 ⟨0, none⟩ c9exTimes = ⟨3, some 2⟩ ∧
    cbExec 3 15000 ⟨3, some 2⟩ 15002 false =
      { outcome := .circuitOpen, invoked := false, state := ⟨3, some 2⟩ } ∧
    cbExec 3 15000 ⟨3, some 2⟩ 20000 true =
      { outcome := .success, invoked := true, state := ⟨0, none⟩ } :=
  C9_circuit_breaker 3 15000 c9exTimes (by decide) (by decide) 2 (by decide)
    15002 20000 false (by decide) (by decide)

/-- Three providers all reporting a draw for the same canonical key. -/
def c10exFacts : List NormalizedFact :=
  [ { provider := "THESPORTSDB", canonicalKey := "winner:draw:arsenalchelsea:2024-11-05",
      display := "Arsenal 1-1 Chelsea", category := .result, homeTeam := some "Arsenal",
      awayTeam := some "Chelsea", winner := some "draw", homeScore := none,
      awayScore := none, award := none, player := none, status := some "FT",
      endTimestamp := none, sourceUrl := none, reliability := 85/100 },
    { provider := "API_SPORTS_SOCCER", canonicalKey := "winner:draw:arsenalchelsea:2024-11-05",
      display := "Arsenal 1-1 Chelsea", category := .result, homeTeam := some "Arsenal",
      awayTeam := some "Chelsea", winner := some "draw", homeScore := none,
      awayScore := none, award := none, player := none, status := some "FT",
      endTimestamp := none, sourceUrl := none, reliability := 95/100 },
    { provider := "THE_ODDS_API", canonicalKey := "winner:draw:arsenalchelsea:2024-11-05",
      display := "Arsenal 1-1 Chelsea", category := .result, homeTeam := some "Arsenal",
      awayTeam := some "Chelsea", winner := some "draw", homeScore := none,
      awayScore := none, award := none, player := none, status := some "FT",
      endTimestamp := none, sourceUrl := none, reliability := 9/10 } ]

def c10exStructured : StructuredQuery :=
  { sport := "general", date := none, teams := ["Arsenal"],
    questionType := .did_result_happen }

/-- The single evidence group `analyzeFacts` builds from `c10exFacts`. -/
def c10exGroup : EvidenceGroup :=
  { key := "winner:draw:arsenalchelsea:2024-11-05", facts := c10exFacts,
    providers := ["THESPORTSDB", "API_SPORTS_SOCCER", "THE_ODDS_API"],
    reliabilityAverage := 9/10 }

/-- Two matching statistics that each cite `OPTA_STATS`: the statistic path
then returns a duplicated sources list. -/
def c6exStats : List NormalizedStatistic :=
  [ { type := "goals", team := none, player := none, value := 5, unit := .count,
      period := "full_time", aggregation := "total",
      sources := [⟨"OPTA_STATS", 1, 45/100, 0⟩] },
    { type := "goals", team := none, player := none, value := 5, unit := .count,
      period := "full_time", aggregation := "total",
      sources := [⟨"OPTA_STATS", 1, 45/100, 0⟩] } ]

/-- The query the classifier produces on `"yellow cards >= 4"`: the
`>=`-pattern of `resolveThreshold` fires, but the hint regex of
`determineQueryType` has no `>=` alternative, so the type stays
`match_statistic`. -/
def c7exQuery : StatisticsQuery :=
  { queryType := .match_statistic
    statisticType := "yellow_cards"
    matchHomeTeam := none
    matchAwayTeam := none
    matchCompetition := none
    team := none
    player := none
    aggregation := "total"
    period := "full_time"
    threshold := some 4
    comparator := some ">="
    eventEndTime := none
    canResolveNow := false
    rawText := "yellow cards >= 4" }

/-- C7 (amended): in every query the classifier returns, the threshold and
the comparator are present together, exactly when `resolveThreshold` finds
one of its nine patterns in the lower-cased raw text; the `queryType`
field plays no part in it (the hint regex of `determineQueryType` is
neither necessary nor sufficient for a threshold match). -/
theorem C7_threshold_amended (rawQuery : String) (now : ℤ) (q : StatisticsQuery)
    (h : classifyStatisticsQuery rawQuery now = some q) :
    (q.threshold.isSome ↔ q.comparator.isSome) ∧
      (q.threshold.isSome ↔ (resolveThreshold (lowerStr rawQuery).data).isSome) := by
  simp only [classifyStatisticsQuery] at h
  cases hinf : inferStatisticType (lowerStr rawQuery).data with
  | none => rw [hinf] at h; simp at h
  | some st =>
    rw [hinf] at h
    simp only [Option.some.injEq] at h
    subst h
    cases hres : resolveThreshold (lowerStr rawQuery).data <;> simp [hres]

/-- C8 as stated is false on the code: `"did arsenal win"` classifies as
`did_result_happen`, yet Arsenal is not in the basketball keyword table, so
the teams list is empty. -/
theorem C8_team_counterexample :
    (parseQueryToStructuredRequest "did arsenal win").questionType =
        QuestionType.did_result_happen ∧
      (parseQueryToStructuredRequest "did arsenal win").teams = [] := by decide

/-- C8 (amended): the teams list of the structured query is non-empty
exactly when the trimmed, lower-cased query mentions one of the basketball
keywords other than `nba`/`basketball`; the question type has no bearing on
it. -/
theorem C8_teams_amended (query : String) :
    (parseQueryToStructuredRequest query).teams ≠ [] ↔
      ∃ kw ∈ BASKETBALL_KEYWORDS, kw ≠ "nba" ∧ kw ≠ "basketball" ∧
        hasSub kw.toList (lowerStr (trimStr query)).data = true := by
  simp only [parseQueryToStructuredRequest, extractQueryMetadata]
  constructor
  · intro h
    have hf : BASKETBALL_KEYWORDS.filter
        (fun kw => kw != "nba" && kw != "basketball" &&
          hasSub kw.toList (lowerStr (trimStr query)).data) ≠ [] := by
      intro hnil
      rw [hnil] at h
      exact h rfl
    obtain ⟨kw, hkw⟩ := List.exists_mem_of_ne_nil _ hf
    have hm := List.mem_filter.mp hkw
    have hp := hm.2
    simp only [Bool.and_eq_true, bne_iff_ne] at hp
    exact ⟨kw, hm.1, hp.1.1, hp.1.2, hp.2⟩
  · rintro ⟨kw, hmem, h1, h2, h3⟩ htake
    rcases List.take_eq_nil_iff.mp htake with h0 | h0
    · exact absurd h0 (by decide)
    · have hk : kw ∈ BASKETBALL_KEYWORDS.filter
          (fun kw => kw != "nba" && kw != "basketball" &&
            hasSub kw.toList (lowerStr (trimStr query)).data) :=
        List.mem_filter.mpr ⟨hmem, by
          simp only [Bool.and_eq_true, bne_iff_ne]; exact ⟨⟨h1, h2⟩, h3⟩⟩
      rw [h0] at hk
      exact absurd hk (List.not_mem_nil kw)

section RatKernelEval
/- Batteries marks the `Rat` field operations `@[irreducible]`, which blocks
`decide` on concrete rational arithmetic; this section restores the ordinary
reducibility locally so that concrete runs of the embedded pipeline evaluate. -/
set_option allowUnsafeReducibility true
attribute [local semireducible] Rat.add Rat.sub Rat.mul Rat.inv

/-- Witness for C3 at a concrete agreed consensus. -/
theorem C3_agreed_invariant_witness :
    3 ≤ c3exConsensus.agreementCount ∧ 1 ≤ c3exConsensus.statsProviderCount ∧
    (∃ src ∈ c3exConsensus.supportingSources, src.source ∈ STATS_PROVIDER_NAMES) ∧
    c3exConsensus.variance = calculateVariance
      ((c3exStats.filter (fun s => matchesQuery s c3exQuery)).map (fun s => s.value)) ∧
    c3exConsensus.variance ≤ (if c3exConsensus.unit = .percentage then 4 else 1) :=
  C3_agreed_invariant c3exStats c3exQuery c3exConsensus (by decide) (by decide)

/-- C2 as stated is false on the code: with `count`-unit values `[5, 6, 6]`
the claim's tolerance-1 scan agrees on 5 with no outliers, while the code's
tolerance-0 scan agrees on 6 and marks the 5 as an outlier. -/
theorem C2_consensus_counterexample :
    computeStatisticConsensus c2exStats c2exQuery = some c2exConsensus ∧
    c2exConsensus.agreedValue = some 6 ∧
    c2exConsensus.unit = .count ∧
    claimTol .count = 1 ∧
    claimConsensusValue
      ((c2exStats.filter (fun s => matchesQuery s c2exQuery)).map (fun s => s.value))
      (claimTol .count) = some 5 ∧
    ((5 : ℚ) ≠ 6) ∧
    c2exConsensus.outliers = [("OPTA_STATS", 5)] ∧
    ((c2exStats.filter (fun s => matchesQuery s c2exQuery)).filter
      (fun s => claimTol .count < |s.value - 6|)) = [] := by
  decide

/-- Witness for the amended C2 at the concrete input. -/
theorem C2_consensus_value_amended_witness :
    ∃ v, c2exConsensus.agreedValue = some v ∧
      v ∈ (c2exStats.filter (fun s => matchesQuery s c2exQuery)).map (fun s => s.value) ∧
      c2exConsensus.agreementCount = countWithin
        ((c2exStats.filter (fun s => matchesQuery s c2exQuery)).map (fun s => s.value))
        (if c2exConsensus.unit = .percentage then 1 else 0) v ∧
      (∀ w ∈ (c2exStats.filter (fun s => matchesQuery s c2exQuery)).map (fun s => s.value),
        countWithin ((c2exStats.filter (fun s => matchesQuery s c2exQuery)).map (fun s => s.value))
          (if c2exConsensus.unit = .percentage then 1 else 0) w ≤ c2exConsensus.agreementCount) ∧
      (∀ w ∈ (c2exStats.filter (fun s => matchesQuery s c2exQuery)).map (fun s => s.value),
        countWithin ((c2exStats.filter (fun s => matchesQuery s c2exQuery)).map (fun s => s.value))
          (if c2exConsensus.unit = .percentage then 1 else 0) w = c2exConsensus.agreementCount → v ≤ w) ∧
      c2exConsensus.outliers = ((c2exStats.filter (fun s => matchesQuery s c2exQuery)).filter
        (fun s => |s.value - v| > (if c2exConsensus.unit = .percentage then 1 else 0))).map
        (fun s => (((s.sources.head?).map (fun src => src.source)).getD "unknown", s.value)) :=
  C2_consensus_value_amended c2exStats c2exQuery c2exConsensus (by decide)

/-- C4 as stated is false on the code: a consensus with `agreed = false`
(one source, one agreeing value) still resolves `"goals:5"`, not
`insufficient_data`, and the confidence is the weighted score 0.15, outside
the 0.25–0.30 band. -/
theorem C4_insufficient_gate_counterexample :
    (resolveStatisticsFromNormalized c4exQuery [] c4exStats 0).resolution = "goals:5" ∧
    (resolveStatisticsFromNormalized c4exQuery [] c4exStats 0).resolution ≠
      "insufficient_data" ∧
    ((computeStatisticConsensus c4exStats c4exQuery).map (fun c => c.agreed)) =
      some false ∧
    (resolveStatisticsFromNormalized c4exQuery [] c4exStats 0).confidence = 3/20 ∧
    ¬((1:ℚ)/4 ≤ 3/20 ∧ (3:ℚ)/20 ≤ 3/10) := by
  decide

/-- C5 as stated is false on the code: with 4 distinct providers, no
conflicts, reliability 0.7 and exactly half the facts recent, the code
grants the 0.02 freshness bonus (confidence 0.77) while the claim's
"majority" bonus is 0 (confidence 0.75). -/
theorem C5_confidence_counterexample :
    3 ≤ countDistinctProviders c5exFacts ∧
    deterministicConfidence c5exFacts 0 0 = 77/100 ∧
    specOutcomeConfidenceMajority c5exFacts 0 0 = 75/100 ∧
    ((77 : ℚ)/100 ≠ 75/100) := by
  decide

/-- Witness for the amended C5 at the concrete input. -/
theorem C5_confidence_amended_witness :
    deterministicConfidence c5exFacts 0 0 = specOutcomeConfidenceHalf c5exFacts 0 0 :=
  C5_confidence_amended c5exFacts 0 0 (by decide)

/-- Witness for C10 at a concrete three-provider draw. -/
theorem C10_draw_insufficient_witness :
    extractWinner (filterFinalFacts c10exGroup.facts) = none ∧
    (decideResolution c10exStructured (analyzeFacts c10exFacts []) none
      0).resolution = "insufficient_data" ∧
    (decideResolution c10exStructured (analyzeFacts c10exFacts []) none
      0).resolution ≠ "no" :=
  C10_draw_insufficient c10exStructured c10exFacts [] none 0 c10exGroup
    (by decide) (by decide) (by decide)

/-- C1 as stated is false on the code: with two groups tied on provider
count and reliability average, the selected group follows insertion order,
so permuting the facts flips the selected key from "a" to "b". -/
theorem C1_selection_counterexample :
    c1exFacts.Perm c1exFactsSwapped ∧
    (selectAcceptedGroup (groupFacts c1exFacts)).map (fun g => g.key) = some "a" ∧
    (selectAcceptedGroup (groupFacts c1exFactsSwapped)).map (fun g => g.key) =
      some "b" ∧
    ("a" : String) ≠ "b" := by
  refine ⟨?_, by decide, by decide, by decide⟩
  exact List.Perm.swap _ _ []

/-- Witness for the amended C1 at a concrete tie-free input. -/
theorem C1_selection_perm_amended_witness :
    ((selectAcceptedGroup (groupFacts c1wFacts)).map (fun g => g.key)) =
      ((selectAcceptedGroup (groupFacts c1wFactsPerm)).map (fun g => g.key)) ∧
    (∀ g, selectAcceptedGroup (groupFacts c1wFacts) = some g →
      ∀ g', selectAcceptedGroup (groupFacts c1wFactsPerm) = some g' →
        g.facts.Perm g'.facts ∧ g.providers.length = g'.providers.length ∧
        g.reliabilityAverage = g'.reliabilityAverage) :=
  C1_selection_perm_amended c1wFacts c1wFactsPerm (by decide) (by decide)

/-- C6 as stated is false on the code: the statistic path copies duplicate
supporting-source names straight into the result's sources. -/
theorem C6_sources_counterexample :
    (resolveStatisticsFromNormalized c4exQuery [] c6exStats 0).sources =
      ["OPTA_STATS", "OPTA_STATS"] ∧
    ¬ (resolveStatisticsFromNormalized c4exQuery [] c6exStats 0).sources.Nodup := by
  decide

/-- C7 as stated is false on the code: `"yellow cards >= 4"` gets a
threshold of 4 and the comparator `>=` from `resolveThreshold`, but its
`queryType` is `match_statistic`, not `threshold` (the hint regex of
`determineQueryType` lacks a `>=` alternative). -/
theorem C7_threshold_counterexample :
    (classifyStatisticsQuery "yellow cards >= 4" 0).map
        (fun q => (q.queryType, q.threshold, q.comparator)) =
      some (StatQueryType.match_statistic, some (4 : ℚ), some ">=") ∧
    StatQueryType.match_statistic ≠ StatQueryType.threshold := by
  exact ⟨by decide, by decide⟩

/-- Witness for the amended C7 at the concrete query `"yellow cards >= 4"`. -/
theorem C7_threshold_amended_witness :
    classifyStatisticsQuery "yellow cards >= 4" 0 = some c7exQuery ∧
      ((c7exQuery.threshold.isSome ↔ c7exQuery.comparator.isSome) ∧
        (c7exQuery.threshold.isSome ↔
          (resolveThreshold (lowerStr "yellow cards >= 4").data).isSome)) :=
  ⟨by decide, C7_threshold_amended "yellow cards >= 4" 0 c7exQuery (by decide)⟩

end RatKernelEval

end Oracle
